import Mathlib

/-!
# Transaction admission: fee policy, fee deduction and validator aggregation

A shallow embedding of `x/feegrant/ante/fee.go` (the `DeductFeeDecorator`, `DeductFees`
and `checkTxFeeWithValidatorMinGasPrices`) and of `x/auth/tx/config/module.go`
(`AppModule.TxValidator`), followed by theorems about them.

Stateful Go code is embedded by explicit state passing: a collaborator call takes the
state of the branch behind the context and returns the new state with its error value.
Every call the embedded functions make to a collaborator is appended to a call log, so
that "is invoked", "exactly once" and "before" are statements about that log.
-/

namespace CosmosAnte

/-! ## Coins and decimals -/

/-- Modelled from the spec: `sdk.AccAddress` is not under src/. An account address is a
byte string; a nil and an empty address are both the empty list. -/
abbrev AccAddress := List Nat

/-- A message of a transaction; its content is never inspected by the admission code. -/
abbrev Msg := String

/-- Modelled from the spec: `sdk.Coin` is not under src/. A denomination with an integer
amount; the type itself admits a negative amount, which `Coins.IsValid` rejects. -/
structure Coin where
  Denom : String
  Amount : Int
deriving DecidableEq, Repr

/-- Modelled from the spec: `sdk.Coins` is not under src/. A coin set is a list of coins. -/
abbrev Coins := List Coin

/-- Modelled from the spec: `sdk.NewCoin` is not under src/. A coin holds a non-negative
amount (spec section 3), so building one from a negative amount is refused (`none`). -/
def NewCoin (denom : String) (amount : Int) : Option Coin :=
  if amount < 0 then none else some ⟨denom, amount⟩

/-- Modelled from the spec: `Coins.IsZero` is not under src/. A fee is zero when all its
amounts are zero, the empty coin set included ("a resolved fee of all-zero amounts"). -/
def Coins.IsZero (coins : Coins) : Bool :=
  coins.all (fun c => c.Amount == 0)

/-- Modelled from the spec: `Coins.IsValid` is not under src/. A well-formed coin set has
unique denominations and no negative amount (spec sections 3 and 7). -/
def Coins.IsValid (coins : Coins) : Bool :=
  coins.all (fun c => decide (0 ≤ c.Amount)) && decide ((coins.map Coin.Denom).Nodup)

/-- Modelled from the spec: `Coins.IsAnyGTE` is not under src/. The declared fee contains,
for at least one denomination shared with `coinsB`, an amount greater than or equal to
that denomination's amount in `coinsB`. -/
def Coins.IsAnyGTE (coins coinsB : Coins) : Bool :=
  coins.any (fun c => coinsB.any (fun r => r.Denom == c.Denom && decide (r.Amount ≤ c.Amount)))

/-- Number of fractional decimal digits of a `LegacyDec`. -/
def Precision : Nat := 18

/-- The scale `10^Precision` of the fixed-point representation. -/
def precisionReuse : Int := 10 ^ Precision

/-- Modelled from the spec: `LegacyDec` of cosmossdk.io/math is not under src/. The spec
asks for high-precision decimal arithmetic: a decimal is a fixed-point number with 18
fractional digits, held as the integer `i`, and stands for `i / 10^18`. -/
structure LegacyDec where
  i : Int
deriving DecidableEq, Repr

/-- The exact rational value a decimal stands for. -/
def LegacyDec.value (d : LegacyDec) : ℚ := (d.i : ℚ) / (10 : ℚ) ^ Precision

/-- Modelled from the spec: `LegacyNewDec` is not under src/. The decimal of an integer. -/
def LegacyNewDec (n : Int) : LegacyDec := ⟨n * precisionReuse⟩

/-- Modelled from the spec: the rounding of a scaled product back to 18 fractional digits
is not under src/. Nearest representable value, a tie going to the even neighbour. -/
def chopPrecisionAndRound (d : Int) : Int :=
  let a := d.natAbs
  let quo := a / (10 ^ Precision)
  let rem := a % (10 ^ Precision)
  let r : Nat :=
    if rem = 0 then quo
    else if 2 * rem < 10 ^ Precision then quo
    else if 10 ^ Precision < 2 * rem then quo + 1
    else if quo % 2 = 0 then quo else quo + 1
  if d < 0 then -(r : Int) else (r : Int)

/-- Modelled from the spec: `LegacyDec.Mul` is not under src/. High-precision product of two
decimals, rounded to 18 fractional digits. -/
def LegacyDec.Mul (d d2 : LegacyDec) : LegacyDec := ⟨chopPrecisionAndRound (d.i * d2.i)⟩

/-- Modelled from the spec: `LegacyDec.Ceil` is not under src/. The product is rounded up:
the least whole decimal greater than or equal to `d`. -/
def LegacyDec.Ceil (d : LegacyDec) : LegacyDec :=
  let quo := Int.tdiv d.i precisionReuse
  let rem := Int.tmod d.i precisionReuse
  if rem ≤ 0 then ⟨quo * precisionReuse⟩ else ⟨(quo + 1) * precisionReuse⟩

/-- Modelled from the spec: `LegacyDec.RoundInt` is not under src/. The integer nearest to
the decimal (the decimal itself when it is whole). -/
def LegacyDec.RoundInt (d : LegacyDec) : Int := chopPrecisionAndRound d.i

/-- Modelled from the spec: `sdk.DecCoin` is not under src/. A minimum gas price: a
denomination and a decimal rate. -/
structure DecCoin where
  Denom : String
  Amount : LegacyDec
deriving DecidableEq, Repr

/-- Modelled from the spec: `sdk.DecCoins` is not under src/. The configured minimum gas
prices, an ordered set of (denomination, decimal rate) pairs. -/
abbrev DecCoins := List DecCoin

/-- Modelled from the spec: `DecCoins.IsZero` is not under src/. No minimum gas price is
configured when the set is empty or every rate is zero. -/
def DecCoins.IsZero (coins : DecCoins) : Bool :=
  coins.all (fun c => c.Amount.i == 0)

/-! ## Errors -/

/-- Modelled from the spec: the error packages are not under src/. The first five values
are the registered `sdkerrors` the code refers to; `Wrap` and `Wrapf` are `errorsmod.Wrap`
and `errorsmod.Wrapf` around a cause, the arguments of a format kept as values; `WrapText`
is `errorsmod.Wrapf(cause, err.Error())`, which keeps the text of `err` only; `Errorf` is
`fmt.Errorf` without a cause; `Keeper` is an error raised by a collaborator; `Panic` is a
Go panic unwinding the call. -/
inductive Err where
  | ErrTxDecode
  | ErrInvalidGasLimit
  | ErrInsufficientFee
  | ErrInsufficientFunds
  | ErrInvalidRequest
  | Errorf (msg : String)
  | Wrap (cause : Err) (msg : String)
  | Wrapf (cause : Err) (format : String) (coins : List Coins) (addrs : List AccAddress)
  | WrapText (cause : Err) (text : Err)
  | Keeper (code : Nat)
  | Panic (msg : String)
deriving DecidableEq, Repr

/-- The error directly wrapped by an error, `errors.Unwrap`. -/
def Err.Unwrap : Err → Option Err
  | .Wrap cause _ => some cause
  | .Wrapf cause _ _ _ => some cause
  | .WrapText cause _ => some cause
  | _ => none

/-- Whether `target` is recoverable from `e` by unwrapping, `errors.Is`. -/
def Err.Is : Err → Err → Bool
  | .Wrap cause msg, target =>
      decide (Err.Wrap cause msg = target) || Err.Is cause target
  | .Wrapf cause f cs as, target =>
      decide (Err.Wrapf cause f cs as = target) || Err.Is cause target
  | .WrapText cause t, target =>
      decide (Err.WrapText cause t = target) || Err.Is cause target
  | e, target => decide (e = target)

/-! ## Transactions and contexts -/

/-- Modelled from the spec: `sdk.ExecMode` is not under src/. The execution mode is one of
Check, ReCheck, Simulate and Finalize (spec section 3). -/
inductive ExecMode where
  | ExecModeCheck
  | ExecModeReCheck
  | ExecModeSimulate
  | ExecModeFinalize
deriving DecidableEq, Repr

/-- Modelled from the spec: `sdk.Context` is not under src/. The part of the execution
context the admission code reads: the mode, the block height and the minimum gas prices. -/
structure Context where
  ExecMode : ExecMode
  BlockHeight : Int
  MinGasPrices : DecCoins
deriving DecidableEq, Repr

/-- Modelled from the spec: `sdk.FeeTx` is not under src/. A fee-bearing transaction: its
messages, gas limit (a `uint64`, so below `2^64`), declared fee, declared payer and optional
declared granter (`none` for a nil granter). -/
structure FeeTx where
  GetMsgs : List Msg
  GetGas : Nat
  GetFee : Coins
  FeePayer : AccAddress
  FeeGranter : Option AccAddress
deriving DecidableEq, Repr

/-- Modelled from the spec: `sdk.Tx` is not under src/. A transaction is fee-bearing or
does not implement `FeeTx`. -/
inductive Tx where
  | fee (t : FeeTx)
  | plain (msgs : List Msg)
deriving DecidableEq, Repr

/-- The type assertion `tx.(sdk.FeeTx)`. -/
def Tx.asFeeTx : Tx → Option FeeTx
  | .fee t => some t
  | .plain _ => none

/-- The messages of a transaction, `sdk.Tx.GetMsgs`. -/
def Tx.GetMsgs : Tx → List Msg
  | .fee t => t.GetMsgs
  | .plain msgs => msgs

/-- The Go conversion `int64(g)` of a `uint64`: values from `2^63` on wrap to negative. -/
def int64 (g : Nat) : Int :=
  if g % 2 ^ 64 < 2 ^ 63 then ((g % 2 ^ 64 : Nat) : Int) else ((g % 2 ^ 64 : Nat) : Int) - 2 ^ 64

/-! ## The default fee policy -/

/-- The amount handed to `sdk.NewCoin` for one minimum gas price at gas limit `gas`:
`gp.Amount.Mul(glDec).Ceil().RoundInt()` with `glDec = LegacyNewDec(int64(gas))`. -/
def requiredAmount (gp : DecCoin) (gas : Nat) : Int :=
  let glDec := LegacyNewDec (int64 gas)
  let fee := gp.Amount.Mul glDec
  fee.Ceil.RoundInt

/-- The loop filling `requiredFees`; `none` when `sdk.NewCoin` refuses an amount. -/
def requiredFees : DecCoins → Nat → Option Coins
  | [], _ => some []
  | gp :: rest, gas =>
    match NewCoin gp.Denom (requiredAmount gp gas) with
    | none => none
    | some c =>
      match requiredFees rest gas with
      | none => none
      | some cs => some (c :: cs)

/-- The default fee logic `checkTxFeeWithValidatorMinGasPrices`: the minimum price per unit
of gas is set by each validator and enforced in `ExecModeCheck` only. -/
def checkTxFeeWithValidatorMinGasPrices (ctx : Context) (tx : Tx) : Except Err Coins :=
  match tx.asFeeTx with
  | none => .error (.Wrap .ErrTxDecode "Tx must be a FeeTx")
  | some feeTx =>
    let feeCoins := feeTx.GetFee
    let gas := feeTx.GetGas
    if ctx.ExecMode = .ExecModeCheck then
      let minGasPrices := ctx.MinGasPrices
      if !minGasPrices.IsZero then
        match requiredFees minGasPrices gas with
        | none => .error (.Panic "negative coin amount")
        | some required =>
          if !feeCoins.IsAnyGTE required then
            .error (.Wrapf .ErrInsufficientFee "insufficient fees; got: %s required: %s"
              [feeCoins, required] [])
          else .ok feeCoins
      else .ok feeCoins
    else .ok feeCoins

/-! ## Collaborators, worlds and the call log -/

/-- Modelled from the spec: the constant `types.FeeCollectorName` is not under src/. The
name of the fee-collection module account. -/
def FeeCollectorName : String := "fee_collector"

/-- One entry of the call log: a call made by the embedded code to a collaborator. -/
inductive Call where
  | GetModuleAddress (name : String)
  | UseGrantedFees (granter grantee : AccAddress) (fee : Coins) (msgs : List Msg)
  | SendCoinsFromAccountToModule (sender : AccAddress) (recipientModule : String) (amt : Coins)
  | txFeeChecker (ctx : Context) (tx : Tx)
  | next (ctx : Context) (tx : Tx) (simulate : Bool)
deriving DecidableEq, Repr

/-- Whether a log entry is a balance transfer. -/
def Call.isTransfer : Call → Bool
  | .SendCoinsFromAccountToModule _ _ _ => true
  | _ => false

/-- Whether a log entry is an allowance consumption. -/
def Call.isUseGrantedFees : Call → Bool
  | .UseGrantedFees _ _ _ _ => true
  | _ => false

/-- Whether a log entry is an invocation of the fee checker. -/
def Call.isTxFeeChecker : Call → Bool
  | .txFeeChecker _ _ => true
  | _ => false

/-- Whether a log entry is an invocation of the next handler. -/
def Call.isNext : Call → Bool
  | .next _ _ _ => true
  | _ => false

/-- Modelled from the spec: `sdk.Event` is not under src/. The admission event is a record
of the fee paid and the payer address; the two attributes hold the values whose `String()`
rendering the code emits. -/
structure Event where
  fee : Coins
  fee_payer : AccAddress
deriving DecidableEq, Repr

/-- What a context gives access to and a call can change: the state branch, the events of
the event manager, and the log of collaborator calls. -/
structure World (σ : Type) where
  state : σ
  events : List Event
  calls : List Call

/-- Modelled from the spec: the interface `feegrant.AccountKeeper` is not under src/.
Account resolution: a module account name to its address, when it exists. -/
structure AccountKeeper (σ : Type) where
  GetModuleAddress : σ → String → Option AccAddress

/-- Modelled from the spec: the interface `feegrant.BankKeeper` is not under src/. Balance
transfer: (from address, to module account name, coins) to the new state and an error. -/
structure BankKeeper (σ : Type) where
  SendCoinsFromAccountToModule : σ → AccAddress → String → Coins → σ × Option Err

/-- The allowance collaborator, interface `FeegrantKeeper`. -/
structure FeegrantKeeper (σ : Type) where
  UseGrantedFees : σ → AccAddress → AccAddress → Coins → List Msg → σ × Option Err

/-- The fee policy `TxFeeChecker`: returns the effective fee or an error. -/
abbrev TxFeeChecker (σ : Type) := Context → σ → Tx → σ × Except Err Coins

/-- Modelled from the spec: `sdk.AnteHandler` is not under src/. The next handler of the
chain: it returns the new state, the context to go on with, and an error. -/
abbrev AnteHandler (σ : Type) := Context → σ → Tx → Bool → σ × Context × Option Err

/-- The decorator `DeductFeeDecorator`; `feegrantKeeper` is `none` for a nil keeper. -/
structure DeductFeeDecorator (σ : Type) where
  accountKeeper : AccountKeeper σ
  bankKeeper : BankKeeper σ
  feegrantKeeper : Option (FeegrantKeeper σ)
  txFeeChecker : TxFeeChecker σ

/-- The constructor `NewDeductFeeDecorator`: a nil fee checker is replaced by the default
`checkTxFeeWithValidatorMinGasPrices`. -/
def NewDeductFeeDecorator {σ : Type} (ak : AccountKeeper σ) (bk : BankKeeper σ)
    (fk : Option (FeegrantKeeper σ)) (tfc : Option (TxFeeChecker σ)) : DeductFeeDecorator σ :=
  { accountKeeper := ak
    bankKeeper := bk
    feegrantKeeper := fk
    txFeeChecker :=
      match tfc with
      | none => fun ctx s tx => (s, checkTxFeeWithValidatorMinGasPrices ctx tx)
      | some f => f }

/-! ## Fee deduction -/

/-- The function `DeductFees`: deducts fees from the given account. -/
def DeductFees {σ : Type} (bankKeeper : BankKeeper σ) (w : World σ) (acc : AccAddress)
    (fees : Coins) : World σ × Option Err :=
  if !fees.IsValid then
    (w, some (.Wrapf .ErrInsufficientFee "invalid fee amount: %s" [fees] []))
  else
    let r := bankKeeper.SendCoinsFromAccountToModule w.state acc FeeCollectorName fees
    let w1 : World σ :=
      { w with state := r.1
               calls := w.calls ++ [.SendCoinsFromAccountToModule acc FeeCollectorName fees] }
    match r.2 with
    | some err => (w1, some (.WrapText .ErrInsufficientFunds err))
    | none => (w1, none)

/-- The payer resolution of `checkDeductFee` (source lines 85 to 104): the address to
deduct from, after the allowance has been consumed when a granter other than the payer is
declared. -/
def resolvePayer {σ : Type} (dfd : DeductFeeDecorator σ) (w : World σ) (sdkTx : Tx)
    (feeTx : FeeTx) (fee : Coins) : World σ × Except Err AccAddress :=
  let feePayer := feeTx.FeePayer
  match feeTx.FeeGranter with
  | none => (w, .ok feePayer)
  | some feeGranterAddr =>
    match dfd.feegrantKeeper with
    | none => (w, .error (.Wrap .ErrInvalidRequest "fee grants are not enabled"))
    | some fk =>
      if feeGranterAddr ≠ feePayer then
        let r := fk.UseGrantedFees w.state feeGranterAddr feePayer fee sdkTx.GetMsgs
        let w1 : World σ :=
          { w with state := r.1
                   calls := w.calls ++ [.UseGrantedFees feeGranterAddr feePayer fee sdkTx.GetMsgs] }
        match r.2 with
        | some err =>
          (w1, .error (.Wrapf err "%s does not allow to pay fees for %s" []
            [feeGranterAddr, feePayer]))
        | none => (w1, .ok feeGranterAddr)
      else (w, .ok feeGranterAddr)

/-- The method `DeductFeeDecorator.checkDeductFee`. -/
def checkDeductFee {σ : Type} (dfd : DeductFeeDecorator σ) (_ctx : Context) (w : World σ)
    (sdkTx : Tx) (fee : Coins) : World σ × Option Err :=
  match sdkTx.asFeeTx with
  | none => (w, some (.Wrap .ErrTxDecode "Tx must be a FeeTx"))
  | some feeTx =>
    let w0 : World σ := { w with calls := w.calls ++ [.GetModuleAddress FeeCollectorName] }
    match dfd.accountKeeper.GetModuleAddress w.state FeeCollectorName with
    | none =>
      (w0, some (.Errorf "fee collector module account (fee_collector) has not been set"))
    | some _ =>
      match resolvePayer dfd w0 sdkTx feeTx fee with
      | (w1, .error err) => (w1, some err)
      | (w1, .ok deductFeesFrom) =>
        let d : World σ × Option Err :=
          if !fee.IsZero then DeductFees dfd.bankKeeper w1 deductFeesFrom fee else (w1, none)
        match d.2 with
        | some err => (d.1, some err)
        | none => ({ d.1 with events := d.1.events ++ [⟨fee, deductFeesFrom⟩] }, none)

/-- The method `DeductFeeDecorator.AnteHandle`. -/
def AnteHandle {σ : Type} (dfd : DeductFeeDecorator σ) (ctx : Context) (w : World σ) (tx : Tx)
    (next : AnteHandler σ) : World σ × Context × Option Err :=
  match tx.asFeeTx with
  | none => (w, ctx, some (.Wrap .ErrTxDecode "Tx must be a FeeTx"))
  | some feeTx =>
    if ctx.ExecMode ≠ .ExecModeSimulate ∧ ctx.BlockHeight > 0 ∧ feeTx.GetGas = 0 then
      (w, ctx, some (.Wrap .ErrInvalidGasLimit "must provide positive gas"))
    else
      let r : World σ × Except Err Coins :=
        if ctx.ExecMode ≠ .ExecModeSimulate then
          let c := dfd.txFeeChecker ctx w.state tx
          ({ w with state := c.1, calls := w.calls ++ [.txFeeChecker ctx tx] }, c.2)
        else (w, .ok feeTx.GetFee)
      match r.2 with
      | .error err => (r.1, ctx, some err)
      | .ok fee =>
        let d := checkDeductFee dfd ctx r.1 tx fee
        match d.2 with
        | some err => (d.1, ctx, some err)
        | none =>
          let simulate := decide (ctx.ExecMode = .ExecModeSimulate)
          let n := next ctx d.1.state tx simulate
          ({ d.1 with state := n.1, calls := d.1.calls ++ [.next ctx tx simulate] }, n.2.1, n.2.2)

/-! ## The validator aggregator of `x/auth/tx/config/module.go` -/

/-- A registered validator, `TxValidator = func(context.Context, transaction.Tx) error`,
over a state `σ` behind the context and transactions `τ`. -/
abbrev TxValidator (σ τ : Type) := σ → τ → σ × Option Err

/-- One entry of the aggregator's call log: the validator at a position of the registered
list, or the signature verification. -/
inductive VCall where
  | validator (index : Nat)
  | ValidateTx
deriving DecidableEq, Repr

/-- The module `AppModule`: the signature verification and the registered validators. -/
structure AppModule (σ τ : Type) where
  sigVerification : σ → τ → σ × Option Err
  txValidators : List (TxValidator σ τ)

/-- The constructor `NewAppModule`. -/
def NewAppModule {σ τ : Type} (sigVerification : σ → τ → σ × Option Err)
    (txValidators : List (TxValidator σ τ)) : AppModule σ τ :=
  { sigVerification := sigVerification, txValidators := txValidators }

/-- The `for _, validator := range a.txValidators` loop of `AppModule.TxValidator`, from the
validator at position `i` on: it stops at the first error. -/
def validatorLoop {σ τ : Type} :
    List (TxValidator σ τ) → Nat → σ → List VCall → τ → (σ × List VCall) × Option Err
  | [], _, s, log, _ => ((s, log), none)
  | validator :: rest, i, s, log, tx =>
    let r := validator s tx
    match r.2 with
    | some err => ((r.1, log ++ [.validator i]), some err)
    | none => validatorLoop rest (i + 1) r.1 (log ++ [.validator i]) tx

/-- The method `AppModule.TxValidator`: the state reached, the calls made, and the error. -/
def AppModule.TxValidator {σ τ : Type} (a : AppModule σ τ) (s : σ) (tx : τ) :
    (σ × List VCall) × Option Err :=
  match validatorLoop a.txValidators 0 s [] tx with
  | (sl, some err) => (sl, some err)
  | (sl, none) =>
    let r := a.sigVerification sl.1 tx
    ((r.1, sl.2 ++ [.ValidateTx]), r.2)

/-- The state reached once every validator of a list has run in order. -/
def stateAfter {σ τ : Type} : List (TxValidator σ τ) → σ → τ → σ
  | [], s, _ => s
  | validator :: rest, s, tx => stateAfter rest (validator s tx).1 tx

/-! ## A ledger to run the code on -/

/-- Modelled from the spec: `Coins.AmountOf` is not under src/. The amount a coin set holds
of a denomination. -/
def Coins.AmountOf (coins : Coins) (denom : String) : Int :=
  ((coins.filter (fun c => c.Denom == denom)).map Coin.Amount).sum

/-- Modelled from the spec: the bank and allowance stores are not under src/. A ledger
holds the balance of every account per denomination and, for at most one (granter, grantee)
pair, the spend limit per denomination that remains of the allowance. -/
structure Ledger where
  balance : AccAddress → String → Int
  grant : Option (AccAddress × AccAddress)
  spendLimit : String → Int

/-- The coins `amt` moved from `src` to `dst`: what "the full fee has moved" means for the
balances before and after. -/
def Moved (before after : AccAddress → String → Int) (src dst : AccAddress) (amt : Coins) :
    Prop :=
  ∀ a d, after a d =
    before a d - (if a = src then amt.AmountOf d else 0) + (if a = dst then amt.AmountOf d else 0)

/-- Modelled from the spec: the account keeper's implementation is not under src/. The
fee-collector module account is configured at `collector`. -/
def ledgerAccountKeeper (collector : AccAddress) : AccountKeeper Ledger :=
  { GetModuleAddress := fun _ name => if name = FeeCollectorName then some collector else none }

/-- Modelled from the spec: the bank keeper's implementation is not under src/. A transfer
fails with an insufficient-funds error, changing nothing, when the sender lacks a coin of
the amount; otherwise the coins move from the sender to the module account. -/
def ledgerBankKeeper (collector : AccAddress) : BankKeeper Ledger :=
  { SendCoinsFromAccountToModule := fun s sender _ amt =>
      if amt.all (fun c => decide (c.Amount ≤ s.balance sender c.Denom)) then
        ({ s with balance := fun a d =>
            s.balance a d - (if a = sender then amt.AmountOf d else 0)
              + (if a = collector then amt.AmountOf d else 0) }, none)
      else (s, some (.Keeper 1)) }

/-- Modelled from the spec: the feegrant keeper's implementation is not under src/. The
allowance authorizes the grantee to spend a fee within the granter's remaining spend limit
and is decremented by the fee; it denies any other request, changing nothing. -/
def ledgerFeegrantKeeper : FeegrantKeeper Ledger :=
  { UseGrantedFees := fun s granter grantee fee _ =>
      if s.grant = some (granter, grantee)
          ∧ fee.all (fun c => decide (c.Amount ≤ s.spendLimit c.Denom)) = true then
        ({ s with spendLimit := fun d => s.spendLimit d - fee.AmountOf d }, none)
      else (s, some (.Keeper 2)) }

/-- The decorator over the ledger, with the default fee policy. -/
def ledgerDecorator (collector : AccAddress) : DeductFeeDecorator Ledger :=
  NewDeductFeeDecorator (ledgerAccountKeeper collector) (ledgerBankKeeper collector)
    (some ledgerFeegrantKeeper) none

/-- A world with no event and no call yet. -/
def World.init {σ : Type} (s : σ) : World σ := { state := s, events := [], calls := [] }

/-! ## Sample inputs -/

/-- The minimum gas prices `0.1atom,0.2stake`. -/
def samplePrices : DecCoins :=
  [⟨"atom", ⟨100000000000000000⟩⟩, ⟨"stake", ⟨200000000000000000⟩⟩]

/-- A context in the given mode at height 1 with the sample prices. -/
def sampleCtx (mode : ExecMode) : Context :=
  { ExecMode := mode, BlockHeight := 1, MinGasPrices := samplePrices }

/-- A transaction of gas limit `gas` declaring `fee`, paid by account `[1]`, no granter. -/
def sampleTx (gas : Nat) (fee : Coins) : Tx :=
  .fee { GetMsgs := ["msg"], GetGas := gas, GetFee := fee, FeePayer := [1], FeeGranter := none }

/-- The minimum gas price `1atom` per unit of gas. -/
def unitPrice : DecCoin := ⟨"atom", LegacyNewDec 1⟩

/-- A validator that writes its name to a journal and returns the given error. -/
def journalValidator (name : String) (err : Option Err) : TxValidator (List String) Unit :=
  fun s _ => (s ++ [name], err)

/-- A module of three validators, the second of which fails (the third would fail too). -/
def sampleModule : AppModule (List String) Unit :=
  NewAppModule (journalValidator "sig" none)
    [journalValidator "v1" none, journalValidator "v2" (some (.Keeper 2)),
     journalValidator "v3" (some (.Keeper 3))]

/-- A ledger where the accounts `[1]` and `[2]` hold 100atom each and `[2]` has granted
`[1]` an allowance with the spend limit 100atom. -/
def sampleLedger : Ledger :=
  { balance := fun a d => if (a = [1] ∨ a = [2]) ∧ d = "atom" then 100 else 0
    grant := some ([2], [1])
    spendLimit := fun d => if d = "atom" then 100 else 0 }

/-- A transaction paid by `[1]` that declares the granter `granter`. -/
def sampleGrantTx (fee : Coins) (granter : AccAddress) : FeeTx :=
  { GetMsgs := ["msg"], GetGas := 100000, GetFee := fee, FeePayer := [1],
    FeeGranter := some granter }

/-- A first pass of `checkDeductFee` for the fee 60atom of payer `[1]` on granter `[2]`. -/
def samplePass1 : World Ledger × Option Err :=
  checkDeductFee (ledgerDecorator [9]) (sampleCtx .ExecModeFinalize) (World.init sampleLedger)
    (.fee (sampleGrantTx [⟨"atom", 60⟩] [2])) [⟨"atom", 60⟩]

/-- A second pass for the same granter, payer and fee, on the world the first pass left. -/
def samplePass2 : World Ledger × Option Err :=
  checkDeductFee (ledgerDecorator [9]) (sampleCtx .ExecModeFinalize) samplePass1.1
    (.fee (sampleGrantTx [⟨"atom", 60⟩] [2])) [⟨"atom", 60⟩]

/-- The decorator over the ledger with no feegrant keeper configured (a nil keeper). -/
def ledgerDecoratorNoGrants (collector : AccAddress) : DeductFeeDecorator Ledger :=
  NewDeductFeeDecorator (ledgerAccountKeeper collector) (ledgerBankKeeper collector) none none

/-- The last steps of `AnteHandle` (source lines 68 to 72) for a fee already fixed: deduct
the fee with `checkDeductFee` and, when that succeeds, call the next handler. -/
def deductThenNext {σ : Type} (dfd : DeductFeeDecorator σ) (ctx : Context) (w : World σ)
    (tx : Tx) (next : AnteHandler σ) (fee : Coins) : World σ × Context × Option Err :=
  let d := checkDeductFee dfd ctx w tx fee
  match d.2 with
  | some err => (d.1, ctx, some err)
  | none =>
    let simulate := decide (ctx.ExecMode = .ExecModeSimulate)
    let n := next ctx d.1.state tx simulate
    ({ d.1 with state := n.1, calls := d.1.calls ++ [.next ctx tx simulate] }, n.2.1, n.2.2)

/-- A next handler that accepts every transaction and changes nothing. -/
def sampleNext : AnteHandler Ledger := fun ctx s _ _ => (s, ctx, none)

/-! ## The stages of the handler, as the admission contract names them -/

/-- The gas-limit check of `AnteHandle` (source lines 56 to 58) rejects the transaction:
outside Simulate mode, at a positive height, it declares the gas limit 0. -/
def gasLimitCheckFails (ctx : Context) (ft : FeeTx) : Prop :=
  ctx.ExecMode ≠ .ExecModeSimulate ∧ ctx.BlockHeight > 0 ∧ ft.GetGas = 0

/-- The fee policy stage of `AnteHandle` (source lines 61 to 67) succeeds with the fee `fee`
and leaves the world `wf`: in Simulate mode the declared fee is taken and the fee checker
is not called; in every other mode the fee checker is called and returns `fee`. -/
def feePolicyYields {σ : Type} (dfd : DeductFeeDecorator σ) (ctx : Context) (w : World σ)
    (tx : Tx) (ft : FeeTx) (wf : World σ) (fee : Coins) : Prop :=
  (ctx.ExecMode = .ExecModeSimulate ∧ wf = w ∧ fee = ft.GetFee) ∨
  (ctx.ExecMode ≠ .ExecModeSimulate ∧ (dfd.txFeeChecker ctx w.state tx).2 = .ok fee ∧
    wf = { w with state := (dfd.txFeeChecker ctx w.state tx).1
                  calls := w.calls ++ [.txFeeChecker ctx tx] })

/-- The transaction is fee-bearing and the gas-limit check, the fee policy and the fee
deduction all succeed. -/
def allStagesSucceed {σ : Type} (dfd : DeductFeeDecorator σ) (ctx : Context) (w : World σ)
    (tx : Tx) : Prop :=
  ∃ ft wf fee, tx.asFeeTx = some ft ∧ ¬ gasLimitCheckFails ctx ft ∧
    feePolicyYields dfd ctx w tx ft wf fee ∧ (checkDeductFee dfd ctx wf tx fee).2 = none

/-- The decorator over the ledger when the fee-collector module account has not been set:
the account keeper resolves no module account. -/
def ledgerDecoratorNoCollector : DeductFeeDecorator Ledger :=
  NewDeductFeeDecorator { GetModuleAddress := fun _ _ => none } (ledgerBankKeeper [9])
    (some ledgerFeegrantKeeper) none

/-- The text of the error `checkDeductFee` returns when the fee collector is not set. -/
def feeCollectorNotSet : Err :=
  .Errorf "fee collector module account (fee_collector) has not been set"

/-! ## Decimal arithmetic of the required fee -/

theorem precisionReuse_eq : precisionReuse = 1000000000000000000 := by
  unfold precisionReuse Precision; norm_num

theorem chopPrecisionAndRound_mul (k : Int) :
    chopPrecisionAndRound (k * precisionReuse) = k := by
  have hP : (10 : Nat) ^ Precision ≠ 0 := by unfold Precision; norm_num
  have hpos : (0 : Int) < precisionReuse := by rw [precisionReuse_eq]; norm_num
  have hna : (k * precisionReuse).natAbs = k.natAbs * 10 ^ Precision := by
    rw [Int.natAbs_mul]; unfold precisionReuse; norm_cast
  unfold chopPrecisionAndRound
  simp only [hna, Nat.mul_mod_left, if_true, Nat.mul_div_cancel _ (Nat.pos_of_ne_zero hP)]
  by_cases hk : k < 0
  · have : k * precisionReuse < 0 := Int.mul_neg_of_neg_of_pos hk hpos
    rw [if_pos this]; omega
  · have : ¬ k * precisionReuse < 0 := by
      have := Int.mul_nonneg (not_lt.mp hk) (le_of_lt hpos); omega
    rw [if_neg this]; omega

/-- A product with the decimal of an integer is exact. -/
theorem Mul_LegacyNewDec (d : LegacyDec) (n : Int) :
    (d.Mul (LegacyNewDec n)).i = d.i * n := by
  unfold LegacyDec.Mul LegacyNewDec
  simp only
  rw [← mul_assoc, chopPrecisionAndRound_mul]

theorem Ceil_i (d : LegacyDec) : d.Ceil.i = (-((-d.i) / precisionReuse)) * precisionReuse := by
  have h1 := Int.tmod_add_tdiv d.i precisionReuse
  unfold LegacyDec.Ceil
  simp only
  by_cases h : 0 ≤ d.i
  · rw [Int.tdiv_eq_ediv h (by rw [precisionReuse_eq]; norm_num),
      Int.tmod_eq_emod h (by rw [precisionReuse_eq]; norm_num)]
    rw [precisionReuse_eq]
    split_ifs with h2 <;> simp only <;> omega
  · have h3 : d.i.tdiv precisionReuse = -((-d.i) / precisionReuse) := by
      have h4 := Int.neg_tdiv (-d.i) precisionReuse
      rw [neg_neg] at h4
      rw [h4, Int.tdiv_eq_ediv (by omega) (by rw [precisionReuse_eq]; norm_num)]
    rw [h3] at h1 ⊢
    generalize d.i.tmod precisionReuse = r at h1 ⊢
    rw [precisionReuse_eq] at h1 ⊢
    split_ifs with h2
    · simp only
    · omega

theorem ceil_div_eq (a : Int) :
    Int.ceil ((a : ℚ) / (10 : ℚ) ^ Precision) = -((-a) / precisionReuse) := by
  have h := Rat.floor_intCast_div_natCast (-a) (10 ^ Precision)
  have hc : (((10 ^ Precision : ℕ) : ℤ)) = precisionReuse := by
    unfold precisionReuse; push_cast; rfl
  rw [hc] at h
  rw [← h, ← Int.ceil_neg]
  congr 1
  push_cast
  ring

/-- The amount the code requires for a gas price is the ceiling of the exact product of
the rate and the gas limit as converted by `int64`. -/
theorem requiredAmount_eq_ceil (gp : DecCoin) (gas : Nat) :
    requiredAmount gp gas = Int.ceil (gp.Amount.value * ((int64 gas : Int) : ℚ)) := by
  unfold requiredAmount LegacyDec.RoundInt
  simp only
  rw [Ceil_i, chopPrecisionAndRound_mul, Mul_LegacyNewDec, ← ceil_div_eq]
  congr 1
  unfold LegacyDec.value
  push_cast
  ring

theorem int64_of_lt (g : Nat) (h : g < 2 ^ 63) : int64 g = (g : Int) := by
  unfold int64
  have : g % 2 ^ 64 = g := Nat.mod_eq_of_lt (by omega)
  rw [this, if_pos h]

/-- Below `2^63` the required amount is the ceiling of rate times gas limit. -/
theorem requiredAmount_of_lt (gp : DecCoin) (gas : Nat) (h : gas < 2 ^ 63) :
    requiredAmount gp gas = Int.ceil (gp.Amount.value * (gas : ℚ)) := by
  rw [requiredAmount_eq_ceil, int64_of_lt gas h]
  norm_cast

theorem requiredAmount_nonneg (gp : DecCoin) (gas : Nat) (h : gas < 2 ^ 63)
    (hr : 0 ≤ gp.Amount.i) : 0 ≤ requiredAmount gp gas := by
  rw [requiredAmount_of_lt gp gas h]
  apply Int.ceil_nonneg
  apply mul_nonneg
  · unfold LegacyDec.value
    apply div_nonneg
    · exact_mod_cast hr
    · positivity
  · positivity

theorem requiredFees_of_nonneg (prices : DecCoins) (gas : Nat)
    (h : ∀ gp ∈ prices, 0 ≤ requiredAmount gp gas) :
    requiredFees prices gas =
      some (prices.map (fun gp => ⟨gp.Denom, requiredAmount gp gas⟩)) := by
  induction prices with
  | nil => rfl
  | cons gp rest ih =>
    have h1 : ¬ requiredAmount gp gas < 0 := not_lt.mpr (h gp (List.mem_cons_self _ _))
    have h2 := ih (fun g hg => h g (List.mem_cons_of_mem _ hg))
    have hc : NewCoin gp.Denom (requiredAmount gp gas)
        = some ⟨gp.Denom, requiredAmount gp gas⟩ := by
      unfold NewCoin; rw [if_neg h1]
    show (match NewCoin gp.Denom (requiredAmount gp gas) with
      | none => none
      | some c =>
        match requiredFees rest gas with
        | none => none
        | some cs => some (c :: cs)) = _
    rw [hc, h2]
    rfl

theorem IsAnyGTE_iff (coins coinsB : Coins) :
    coins.IsAnyGTE coinsB = true ↔
      ∃ c ∈ coins, ∃ r ∈ coinsB, r.Denom = c.Denom ∧ r.Amount ≤ c.Amount := by
  unfold Coins.IsAnyGTE
  simp only [List.any_eq_true, Bool.and_eq_true, beq_iff_eq, decide_eq_true_eq]

/-- In `ExecModeCheck` with prices configured, non-negative rates and a gas limit below
`2^63`, the default policy accepts the declared fee exactly when one denomination shared
by the fee and the prices carries at least `ceil(rate * gasLimit)`, and otherwise fails
with the insufficient-fee error. -/
theorem checkTxFee_Check_inRange (ctx : Context) (ft : FeeTx)
    (hmode : ctx.ExecMode = .ExecModeCheck) (hnz : ctx.MinGasPrices.IsZero = false)
    (hgas : ft.GetGas < 2 ^ 63) (hrates : ∀ gp ∈ ctx.MinGasPrices, 0 ≤ gp.Amount.i) :
    (checkTxFeeWithValidatorMinGasPrices ctx (.fee ft) = .ok ft.GetFee ↔
      ∃ gp ∈ ctx.MinGasPrices, ∃ c ∈ ft.GetFee,
        c.Denom = gp.Denom ∧ Int.ceil (gp.Amount.value * (ft.GetGas : ℚ)) ≤ c.Amount) ∧
    ((¬ ∃ gp ∈ ctx.MinGasPrices, ∃ c ∈ ft.GetFee,
        c.Denom = gp.Denom ∧ Int.ceil (gp.Amount.value * (ft.GetGas : ℚ)) ≤ c.Amount) →
      ∃ required, checkTxFeeWithValidatorMinGasPrices ctx (.fee ft) =
        .error (.Wrapf .ErrInsufficientFee "insufficient fees; got: %s required: %s"
          [ft.GetFee, required] [])) := by
  have hreq := requiredFees_of_nonneg ctx.MinGasPrices ft.GetGas
    (fun gp hgp => requiredAmount_nonneg gp ft.GetGas hgas (hrates gp hgp))
  have hiff : ft.GetFee.IsAnyGTE
      (ctx.MinGasPrices.map (fun gp => ⟨gp.Denom, requiredAmount gp ft.GetGas⟩)) = true ↔
      ∃ gp ∈ ctx.MinGasPrices, ∃ c ∈ ft.GetFee,
        c.Denom = gp.Denom ∧ Int.ceil (gp.Amount.value * (ft.GetGas : ℚ)) ≤ c.Amount := by
    rw [IsAnyGTE_iff]
    constructor
    · rintro ⟨c, hc, r, hr, hd, ha⟩
      obtain ⟨gp, hgp, rfl⟩ := List.mem_map.mp hr
      refine ⟨gp, hgp, c, hc, hd.symm, ?_⟩
      rw [← requiredAmount_of_lt gp ft.GetGas hgas]; exact ha
    · rintro ⟨gp, hgp, c, hc, hd, ha⟩
      refine ⟨c, hc, ⟨gp.Denom, requiredAmount gp ft.GetGas⟩,
        List.mem_map.mpr ⟨gp, hgp, rfl⟩, hd.symm, ?_⟩
      rw [requiredAmount_of_lt gp ft.GetGas hgas]; exact ha
  unfold checkTxFeeWithValidatorMinGasPrices
  simp only [Tx.asFeeTx, hmode, if_true, hnz, hreq, Bool.not_false]
  by_cases hany : ft.GetFee.IsAnyGTE
      (ctx.MinGasPrices.map (fun gp => ⟨gp.Denom, requiredAmount gp ft.GetGas⟩)) = true
  · simp only [hany, Bool.not_true]
    exact ⟨⟨fun _ => hiff.mp hany, fun _ => rfl⟩, fun hn => absurd (hiff.mp hany) hn⟩
  · have hf : ft.GetFee.IsAnyGTE
        (ctx.MinGasPrices.map (fun gp => ⟨gp.Denom, requiredAmount gp ft.GetGas⟩)) = false := by
      simpa using hany
    simp only [hf, Bool.not_false, if_true]
    refine ⟨⟨fun h => (by cases h), fun h => absurd (hiff.mpr h) hany⟩, fun _ => ⟨_, rfl⟩⟩

/-! ## The validator aggregator -/

theorem range_map_shift (i n : Nat) :
    (List.range (n + 1)).map (fun j => VCall.validator (i + j)) =
      VCall.validator i :: (List.range n).map (fun j => VCall.validator (i + 1 + j)) := by
  rw [List.range_succ_eq_map, List.map_cons, List.map_map]
  congr 1
  apply List.map_congr_left
  intro j _
  simp only [Function.comp, Nat.succ_eq_add_one]
  congr 1
  omega

theorem validatorLoop_pass {σ τ : Type} (vs : List (TxValidator σ τ)) :
    ∀ (i : Nat) (s : σ) (log : List VCall) (tx : τ),
      (∀ (j : Nat) (u : TxValidator σ τ), vs[j]? = some u →
        (u (stateAfter (vs.take j) s tx) tx).2 = none) →
      validatorLoop vs i s log tx =
        ((stateAfter vs s tx, log ++ (List.range vs.length).map (fun j => .validator (i + j))),
          none) := by
  induction vs with
  | nil => intro i s log tx _; simp [validatorLoop, stateAfter]
  | cons v rest ih =>
    intro i s log tx h
    have h0 : (v s tx).2 = none := h 0 v (List.getElem?_cons_zero ..)
    have hrest : ∀ (j : Nat) (u : TxValidator σ τ), rest[j]? = some u →
        (u (stateAfter (rest.take j) (v s tx).1 tx) tx).2 = none := by
      intro j u hj
      exact h (j + 1) u (by simpa using hj)
    have := ih (i + 1) (v s tx).1 (log ++ [.validator i]) tx hrest
    simp only [validatorLoop, h0, this, stateAfter, List.length_cons, range_map_shift,
      List.append_assoc, List.singleton_append]

theorem validatorLoop_fail {σ τ : Type} (vs : List (TxValidator σ τ)) :
    ∀ (i : Nat) (s : σ) (log : List VCall) (tx : τ) (k : Nat) (v : TxValidator σ τ) (e : Err),
      vs[k]? = some v →
      (∀ (j : Nat) (u : TxValidator σ τ), j < k → vs[j]? = some u →
        (u (stateAfter (vs.take j) s tx) tx).2 = none) →
      (v (stateAfter (vs.take k) s tx) tx).2 = some e →
      validatorLoop vs i s log tx =
        (((v (stateAfter (vs.take k) s tx) tx).1,
          log ++ (List.range (k + 1)).map (fun j => .validator (i + j))), some e) := by
  induction vs with
  | nil => intro i s log tx k v e hk; simp at hk
  | cons w rest ih =>
    intro i s log tx k v e hk hpass hfail
    cases k with
    | zero =>
      simp only [List.getElem?_cons_zero, Option.some.injEq] at hk
      subst hk
      simp only [List.take_zero, stateAfter] at hfail ⊢
      simp [validatorLoop, hfail, List.range_succ]
    | succ k =>
      have h0 : (w s tx).2 = none := hpass 0 w (Nat.succ_pos k) (List.getElem?_cons_zero ..)
      have hk2 : rest[k]? = some v := by simpa using hk
      have hrest : ∀ (j : Nat) (u : TxValidator σ τ), j < k → rest[j]? = some u →
          (u (stateAfter (rest.take j) (w s tx).1 tx) tx).2 = none := by
        intro j u hj hu
        exact hpass (j + 1) u (Nat.succ_lt_succ hj) (by simpa using hu)
      have := ih (i + 1) (w s tx).1 (log ++ [.validator i]) tx k v e hk2 hrest
        (by simpa [stateAfter] using hfail)
      simp only [validatorLoop, h0, this, stateAfter, List.take_succ_cons,
        range_map_shift i (k + 1), List.append_assoc, List.singleton_append]

/-- C3: `AppModule.TxValidator` runs the registered validators in registration order. If
the validator at position `k` is the first to fail, the result is its error and the calls
made are exactly the validators at positions 0 to `k`: no later validator and no signature
verification. If none fails, the calls are all validators in order followed by one
signature verification, whose result is returned unchanged. With three validators of which
the second fails, the result is the second's error, and the third validator and the
signature verification are not invoked. -/
theorem C3_TxValidator_first_failure_wins :
    (∀ (σ τ : Type) (a : AppModule σ τ) (s : σ) (tx : τ),
      (∀ (k : Nat) (v : TxValidator σ τ) (e : Err),
        a.txValidators[k]? = some v →
        (∀ (j : Nat) (u : TxValidator σ τ), j < k → a.txValidators[j]? = some u →
          (u (stateAfter (a.txValidators.take j) s tx) tx).2 = none) →
        (v (stateAfter (a.txValidators.take k) s tx) tx).2 = some e →
        a.TxValidator s tx =
          (((v (stateAfter (a.txValidators.take k) s tx) tx).1,
            (List.range (k + 1)).map VCall.validator), some e)) ∧
      ((∀ (j : Nat) (u : TxValidator σ τ), a.txValidators[j]? = some u →
          (u (stateAfter (a.txValidators.take j) s tx) tx).2 = none) →
        a.TxValidator s tx =
          (((a.sigVerification (stateAfter a.txValidators s tx) tx).1,
            (List.range a.txValidators.length).map VCall.validator ++ [VCall.ValidateTx]),
            (a.sigVerification (stateAfter a.txValidators s tx) tx).2))) ∧
    sampleModule.TxValidator [] () =
      ((["v1", "v2"], [VCall.validator 0, VCall.validator 1]), some (.Keeper 2)) := by
  refine ⟨?_, rfl⟩
  intro σ τ a s tx
  constructor
  · intro k v e hk hpass hfail
    have h := validatorLoop_fail a.txValidators 0 s [] tx k v e hk hpass hfail
    simp only [Nat.zero_add, List.nil_append] at h
    simp only [AppModule.TxValidator, h]
  · intro hpass
    have h := validatorLoop_pass a.txValidators 0 s [] tx hpass
    simp only [Nat.zero_add, List.nil_append] at h
    simp only [AppModule.TxValidator, h]

/-- C3 at the sample module: the first validator passes and the second fails, so the
result is the second's error after the calls to the validators 0 and 1 only. -/
theorem C3_TxValidator_first_failure_wins_witness :
    sampleModule.TxValidator [] () =
      ((["v1", "v2"], (List.range 2).map VCall.validator), some (.Keeper 2)) :=
  (C3_TxValidator_first_failure_wins.1 (List String) Unit sampleModule [] ()).1 1
    (journalValidator "v2" (some (.Keeper 2))) (.Keeper 2) rfl
    (fun j u hj hu => by
      have hj0 : j = 0 := by omega
      subst hj0
      have hu2 : journalValidator "v1" none = u := by
        simpa [sampleModule, NewAppModule] using hu
      subst hu2
      rfl)
    rfl

/-! ## Payer resolution and fee deduction -/

theorem resolvePayer_no_granter {σ : Type} (dfd : DeductFeeDecorator σ) (w : World σ)
    (sdkTx : Tx) (feeTx : FeeTx) (fee : Coins) (hg : feeTx.FeeGranter = none) :
    resolvePayer dfd w sdkTx feeTx fee = (w, .ok feeTx.FeePayer) := by
  simp only [resolvePayer, hg]

theorem resolvePayer_no_keeper {σ : Type} (dfd : DeductFeeDecorator σ) (w : World σ)
    (sdkTx : Tx) (feeTx : FeeTx) (fee : Coins) (g : AccAddress)
    (hg : feeTx.FeeGranter = some g) (hk : dfd.feegrantKeeper = none) :
    resolvePayer dfd w sdkTx feeTx fee =
      (w, .error (.Wrap .ErrInvalidRequest "fee grants are not enabled")) := by
  simp only [resolvePayer, hg, hk]

theorem resolvePayer_same {σ : Type} (dfd : DeductFeeDecorator σ) (w : World σ)
    (sdkTx : Tx) (feeTx : FeeTx) (fee : Coins) (g : AccAddress) (fk : FeegrantKeeper σ)
    (hg : feeTx.FeeGranter = some g) (hk : dfd.feegrantKeeper = some fk)
    (he : g = feeTx.FeePayer) :
    resolvePayer dfd w sdkTx feeTx fee = (w, .ok g) := by
  simp only [resolvePayer, hg, hk, he, ne_eq, not_true_eq_false, if_false]

theorem resolvePayer_denied {σ : Type} (dfd : DeductFeeDecorator σ) (w : World σ)
    (sdkTx : Tx) (feeTx : FeeTx) (fee : Coins) (g : AccAddress) (fk : FeegrantKeeper σ)
    (err : Err)
    (hg : feeTx.FeeGranter = some g) (hk : dfd.feegrantKeeper = some fk)
    (hne : g ≠ feeTx.FeePayer)
    (hr : (fk.UseGrantedFees w.state g feeTx.FeePayer fee sdkTx.GetMsgs).2 = some err) :
    resolvePayer dfd w sdkTx feeTx fee =
      ({ state := (fk.UseGrantedFees w.state g feeTx.FeePayer fee sdkTx.GetMsgs).1
         events := w.events
         calls := w.calls ++ [.UseGrantedFees g feeTx.FeePayer fee sdkTx.GetMsgs] },
       .error (.Wrapf err "%s does not allow to pay fees for %s" [] [g, feeTx.FeePayer])) := by
  simp only [resolvePayer, hg, hk, ne_eq, hne, not_false_eq_true, if_true, hr]

theorem resolvePayer_granted {σ : Type} (dfd : DeductFeeDecorator σ) (w : World σ)
    (sdkTx : Tx) (feeTx : FeeTx) (fee : Coins) (g : AccAddress) (fk : FeegrantKeeper σ)
    (hg : feeTx.FeeGranter = some g) (hk : dfd.feegrantKeeper = some fk)
    (hne : g ≠ feeTx.FeePayer)
    (hr : (fk.UseGrantedFees w.state g feeTx.FeePayer fee sdkTx.GetMsgs).2 = none) :
    resolvePayer dfd w sdkTx feeTx fee =
      ({ state := (fk.UseGrantedFees w.state g feeTx.FeePayer fee sdkTx.GetMsgs).1
         events := w.events
         calls := w.calls ++ [.UseGrantedFees g feeTx.FeePayer fee sdkTx.GetMsgs] },
       .ok g) := by
  simp only [resolvePayer, hg, hk, ne_eq, hne, not_false_eq_true, if_true, hr]

/-- Payer resolution makes no transfer and emits no event, and the address it resolves is
the declared granter when there is one and the declared fee payer otherwise. -/
theorem resolvePayer_spec {σ : Type} (dfd : DeductFeeDecorator σ) (w : World σ) (sdkTx : Tx)
    (feeTx : FeeTx) (fee : Coins) :
    (∃ new, (resolvePayer dfd w sdkTx feeTx fee).1.calls = w.calls ++ new ∧
      new.filter Call.isTransfer = []) ∧
    (resolvePayer dfd w sdkTx feeTx fee).1.events = w.events ∧
    (∀ addr, (resolvePayer dfd w sdkTx feeTx fee).2 = .ok addr →
      addr = feeTx.FeeGranter.getD feeTx.FeePayer) := by
  cases hg : feeTx.FeeGranter with
  | none =>
    rw [resolvePayer_no_granter dfd w sdkTx feeTx fee hg]
    exact ⟨⟨[], by simp, rfl⟩, rfl, fun addr h => by simpa using h.symm⟩
  | some g =>
    cases hk : dfd.feegrantKeeper with
    | none =>
      rw [resolvePayer_no_keeper dfd w sdkTx feeTx fee g hg hk]
      exact ⟨⟨[], by simp, rfl⟩, rfl, fun addr h => by simp at h⟩
    | some fk =>
      by_cases he : g = feeTx.FeePayer
      · rw [resolvePayer_same dfd w sdkTx feeTx fee g fk hg hk he]
        exact ⟨⟨[], by simp, rfl⟩, rfl, fun addr h => by simpa using h.symm⟩
      · cases hr : (fk.UseGrantedFees w.state g feeTx.FeePayer fee sdkTx.GetMsgs).2 with
        | none =>
          rw [resolvePayer_granted dfd w sdkTx feeTx fee g fk hg hk he hr]
          exact ⟨⟨[.UseGrantedFees g feeTx.FeePayer fee sdkTx.GetMsgs], rfl, rfl⟩, rfl,
            fun addr h => by simpa using h.symm⟩
        | some err =>
          rw [resolvePayer_denied dfd w sdkTx feeTx fee g fk err hg hk he hr]
          exact ⟨⟨[.UseGrantedFees g feeTx.FeePayer fee sdkTx.GetMsgs], rfl, rfl⟩, rfl,
            fun addr h => by simp at h⟩

theorem DeductFees_ok {σ : Type} (bk : BankKeeper σ) (w : World σ) (acc : AccAddress)
    (fees : Coins) (h : (DeductFees bk w acc fees).2 = none) :
    (DeductFees bk w acc fees).1 =
      { state := (bk.SendCoinsFromAccountToModule w.state acc FeeCollectorName fees).1
        events := w.events
        calls := w.calls ++ [.SendCoinsFromAccountToModule acc FeeCollectorName fees] } ∧
    (bk.SendCoinsFromAccountToModule w.state acc FeeCollectorName fees).2 = none ∧
    fees.IsValid = true := by
  unfold DeductFees at h ⊢
  by_cases hv : fees.IsValid = true
  · simp only [hv, Bool.not_true, Bool.false_eq_true, if_false] at h ⊢
    cases hr : (bk.SendCoinsFromAccountToModule w.state acc FeeCollectorName fees).2 with
    | none => simp
    | some err => simp [hr] at h
  · simp [hv] at h

/-- The shape of `checkDeductFee` once the transaction is fee-bearing and the fee
collector is configured. -/
theorem checkDeductFee_eq {σ : Type} (dfd : DeductFeeDecorator σ) (ctx : Context)
    (w : World σ) (ft : FeeTx) (fee : Coins) (collector : AccAddress)
    (hc : dfd.accountKeeper.GetModuleAddress w.state FeeCollectorName = some collector) :
    checkDeductFee dfd ctx w (.fee ft) fee =
      match resolvePayer dfd
          { w with calls := w.calls ++ [.GetModuleAddress FeeCollectorName] } (.fee ft) ft fee with
      | (w1, .error err) => (w1, some err)
      | (w1, .ok deductFeesFrom) =>
        if fee.IsZero = true then
          ({ w1 with events := w1.events ++ [⟨fee, deductFeesFrom⟩] }, none)
        else
          match (DeductFees dfd.bankKeeper w1 deductFeesFrom fee).2 with
          | some err => ((DeductFees dfd.bankKeeper w1 deductFeesFrom fee).1, some err)
          | none =>
            ({ (DeductFees dfd.bankKeeper w1 deductFeesFrom fee).1 with
                events := (DeductFees dfd.bankKeeper w1 deductFeesFrom fee).1.events
                  ++ [⟨fee, deductFeesFrom⟩] }, none) := by
  unfold checkDeductFee
  simp only [Tx.asFeeTx, hc]
  split
  · rfl
  · by_cases hz : fee.IsZero = true
    · simp only [hz, Bool.not_true, Bool.false_eq_true, if_false, if_true]
    · simp only [hz, Bool.not_eq_true] at *
      simp only [hz, Bool.not_false, if_true, Bool.false_eq_true, if_false]


/-- C4: when `checkDeductFee` succeeds with a non-zero resolved fee, the transaction is
fee-bearing and, among the calls made, there is exactly one transfer: of the full resolved
fee, to the fee-collector module account, from the declared granter when a granter is
declared and from the declared fee payer otherwise. -/
theorem C4_checkDeductFee_exactly_one_transfer {σ : Type} (dfd : DeductFeeDecorator σ)
    (ctx : Context) (w : World σ) (tx : Tx) (fee : Coins)
    (hok : (checkDeductFee dfd ctx w tx fee).2 = none) (hnz : fee.IsZero = false) :
    ∃ ft new, tx.asFeeTx = some ft ∧
      (checkDeductFee dfd ctx w tx fee).1.calls = w.calls ++ new ∧
      new.filter Call.isTransfer =
        [.SendCoinsFromAccountToModule (ft.FeeGranter.getD ft.FeePayer) FeeCollectorName fee] := by
  cases tx with
  | plain msgs => simp [checkDeductFee, Tx.asFeeTx] at hok
  | fee ft =>
    refine ⟨ft, ?_⟩
    cases hc : dfd.accountKeeper.GetModuleAddress w.state FeeCollectorName with
    | none => simp [checkDeductFee, Tx.asFeeTx, hc] at hok
    | some collector =>
      rw [checkDeductFee_eq dfd ctx w ft fee collector hc] at hok ⊢
      obtain ⟨⟨new, hnew, hfilter⟩, -, haddr⟩ := resolvePayer_spec dfd
        { w with calls := w.calls ++ [.GetModuleAddress FeeCollectorName] } (.fee ft) ft fee
      rcases hrp : resolvePayer dfd
        { w with calls := w.calls ++ [.GetModuleAddress FeeCollectorName] } (.fee ft) ft fee
        with ⟨w1, r⟩
      rw [hrp] at hok hnew haddr
      cases r with
      | error err => simp at hok
      | ok addr =>
        have ha := haddr addr rfl
        simp only [hnz, Bool.false_eq_true, if_false] at hok ⊢
        cases hd : (DeductFees dfd.bankKeeper w1 addr fee).2 with
        | some err => simp [hd] at hok
        | none =>
          obtain ⟨hw, -, -⟩ := DeductFees_ok dfd.bankKeeper w1 addr fee hd
          refine ⟨[.GetModuleAddress FeeCollectorName] ++ new ++
            [.SendCoinsFromAccountToModule addr FeeCollectorName fee], rfl, ?_, ?_⟩
          · simp only [hw]
            simp only at hnew
            rw [hnew]
            simp
          · simp [List.filter_append, hfilter, Call.isTransfer, ha]

/-- C4 at a concrete input: the payer `[1]` holds 100atom and pays the fee 60atom. -/
theorem C4_checkDeductFee_exactly_one_transfer_witness :
    ∃ ft new, (sampleTx 100000 [⟨"atom", 60⟩]).asFeeTx = some ft ∧
      (checkDeductFee (ledgerDecorator [9]) (sampleCtx .ExecModeFinalize)
        (World.init sampleLedger) (sampleTx 100000 [⟨"atom", 60⟩]) [⟨"atom", 60⟩]).1.calls
        = (World.init sampleLedger).calls ++ new ∧
      new.filter Call.isTransfer =
        [.SendCoinsFromAccountToModule (ft.FeeGranter.getD ft.FeePayer) FeeCollectorName
          [⟨"atom", 60⟩]] :=
  C4_checkDeductFee_exactly_one_transfer (ledgerDecorator [9]) (sampleCtx .ExecModeFinalize)
    (World.init sampleLedger) (sampleTx 100000 [⟨"atom", 60⟩]) [⟨"atom", 60⟩] rfl rfl


/-- An error is recoverable from every error that wraps it directly. -/
theorem Err.Is_of_Unwrap (e cause : Err) (h : e.Unwrap = some cause)
    (hself : cause.Is cause = true) : e.Is cause = true := by
  cases e <;> simp [Err.Unwrap] at h <;> subst h <;> simp [Err.Is, hself]

/-- Every error is recoverable from itself. -/
theorem Err.Is_self (e : Err) : e.Is e = true := by
  cases e <;> simp [Err.Is]

/-- Apart from at most one transfer appended to the call log, `DeductFees` leaves the
events and the log as they were. -/
theorem DeductFees_world {σ : Type} (bk : BankKeeper σ) (w : World σ) (acc : AccAddress)
    (fees : Coins) :
    (DeductFees bk w acc fees).1.events = w.events ∧
    (((DeductFees bk w acc fees).1.calls = w.calls ∧ (DeductFees bk w acc fees).2 ≠ none) ∨
      (DeductFees bk w acc fees).1.calls =
        w.calls ++ [.SendCoinsFromAccountToModule acc FeeCollectorName fees]) := by
  unfold DeductFees
  by_cases hv : fees.IsValid = true
  · simp only [hv, Bool.not_true, Bool.false_eq_true, if_false]
    cases hr : (bk.SendCoinsFromAccountToModule w.state acc FeeCollectorName fees).2 with
    | none => simp
    | some err => simp
  · have hf : fees.IsValid = false := by simpa using hv
    simp [hf]

/-- C5: for a declared granter other than the payer, with a feegrant keeper configured and
the fee collector set, one pass of `checkDeductFee` calls `UseGrantedFees` exactly once,
with the granter, the payer, the resolved fee and the messages of the transaction, and
before any transfer (at most one transfer from the granter follows it). If the call
returns a denial, `checkDeductFee` fails with an error wrapping that denial, makes no
transfer and emits no event. On the sample ledger with the spend limit 100atom and the fee
60atom, the first pass is admitted and leaves the limit 40atom, and the second pass is
rejected with the wrapped denial after a second `UseGrantedFees` call. -/
theorem C5_checkDeductFee_consults_allowance_once :
    (∀ (σ : Type) (dfd : DeductFeeDecorator σ) (fk : FeegrantKeeper σ) (ctx : Context)
      (w : World σ) (ft : FeeTx) (fee : Coins) (collector g : AccAddress),
      dfd.feegrantKeeper = some fk →
      dfd.accountKeeper.GetModuleAddress w.state FeeCollectorName = some collector →
      ft.FeeGranter = some g → g ≠ ft.FeePayer →
      (∃ rest, (checkDeductFee dfd ctx w (.fee ft) fee).1.calls =
          w.calls ++ [.GetModuleAddress FeeCollectorName,
            .UseGrantedFees g ft.FeePayer fee ft.GetMsgs] ++ rest ∧
        (rest = [] ∨ rest = [.SendCoinsFromAccountToModule g FeeCollectorName fee])) ∧
      (∀ denial, (fk.UseGrantedFees w.state g ft.FeePayer fee ft.GetMsgs).2 = some denial →
        checkDeductFee dfd ctx w (.fee ft) fee =
          ({ state := (fk.UseGrantedFees w.state g ft.FeePayer fee ft.GetMsgs).1
             events := w.events
             calls := w.calls ++ [.GetModuleAddress FeeCollectorName,
               .UseGrantedFees g ft.FeePayer fee ft.GetMsgs] },
           some (.Wrapf denial "%s does not allow to pay fees for %s" [] [g, ft.FeePayer])) ∧
        (Err.Wrapf denial "%s does not allow to pay fees for %s" [] [g, ft.FeePayer]).Unwrap
          = some denial ∧
        (Err.Wrapf denial "%s does not allow to pay fees for %s" [] [g, ft.FeePayer]).Is denial
          = true)) ∧
    (samplePass1.2 = none ∧ samplePass1.1.state.spendLimit "atom" = 40 ∧
      samplePass2.2 =
        some (.Wrapf (.Keeper 2) "%s does not allow to pay fees for %s" [] [[2], [1]]) ∧
      (samplePass2.1.calls.filter Call.isUseGrantedFees).length = 2 ∧
      (samplePass2.1.calls.filter Call.isTransfer).length = 1 ∧
      samplePass2.1.events.length = 1) := by
  refine ⟨?_, rfl, rfl, rfl, rfl, rfl, rfl⟩
  intro σ dfd fk ctx w ft fee collector g hk hc hg hne
  rw [checkDeductFee_eq dfd ctx w ft fee collector hc]
  constructor
  · cases hr : (fk.UseGrantedFees w.state g ft.FeePayer fee ft.GetMsgs).2 with
    | some denial =>
      rw [resolvePayer_denied dfd
        { w with calls := w.calls ++ [.GetModuleAddress FeeCollectorName] } (.fee ft) ft fee
        g fk denial hg hk hne hr]
      exact ⟨[], by simp [Tx.GetMsgs], Or.inl rfl⟩
    | none =>
      rw [resolvePayer_granted dfd
        { w with calls := w.calls ++ [.GetModuleAddress FeeCollectorName] } (.fee ft) ft fee
        g fk hg hk hne hr]
      simp only [Tx.GetMsgs, List.append_assoc, List.singleton_append]
      by_cases hz : fee.IsZero = true
      · rw [if_pos hz]
        exact ⟨[], by simp, Or.inl rfl⟩
      · rw [if_neg hz]
        obtain ⟨-, hcalls⟩ := DeductFees_world dfd.bankKeeper
          { state := (fk.UseGrantedFees w.state g ft.FeePayer fee ft.GetMsgs).1
            events := w.events
            calls := w.calls ++ [.GetModuleAddress FeeCollectorName,
              .UseGrantedFees g ft.FeePayer fee ft.GetMsgs] } g fee
        rcases hcalls with ⟨hcalls, -⟩ | hcalls
        · refine ⟨[], ?_, Or.inl rfl⟩
          split <;> simp [hcalls]
        · refine ⟨[.SendCoinsFromAccountToModule g FeeCollectorName fee], ?_, Or.inr rfl⟩
          split <;> simp [hcalls]
  · intro denial hr
    rw [resolvePayer_denied dfd
        { w with calls := w.calls ++ [.GetModuleAddress FeeCollectorName] } (.fee ft) ft fee
        g fk denial hg hk hne hr]
    refine ⟨by simp [Tx.GetMsgs], rfl, ?_⟩
    exact Err.Is_of_Unwrap _ denial rfl (Err.Is_self denial)

/-- C5 at the second pass on the sample ledger: the allowance left by the first pass is
40atom, `UseGrantedFees` denies the fee 60atom, and the pass fails with the error wrapping
that denial. -/
theorem C5_checkDeductFee_consults_allowance_once_witness :
    samplePass2.2 =
      some (.Wrapf (.Keeper 2) "%s does not allow to pay fees for %s" [] [[2], [1]]) :=
  congrArg Prod.snd
    (((C5_checkDeductFee_consults_allowance_once.1 Ledger (ledgerDecorator [9])
      ledgerFeegrantKeeper (sampleCtx .ExecModeFinalize) samplePass1.1
      (sampleGrantTx [⟨"atom", 60⟩] [2]) [⟨"atom", 60⟩] [9] [2] rfl rfl rfl (by decide)).2
      (.Keeper 2) rfl).1)


/-- C6 fails when no feegrant keeper is configured: for the granter `[1]` equal to the
payer `[1]`, `checkDeductFee` fails with "fee grants are not enabled", while the same
transaction without a granter is admitted, with one transfer and one event. -/
theorem C6_granter_equals_payer_without_keeper :
    (checkDeductFee (ledgerDecoratorNoGrants [9]) (sampleCtx .ExecModeFinalize)
        (World.init sampleLedger) (.fee (sampleGrantTx [⟨"atom", 60⟩] [1])) [⟨"atom", 60⟩]).2
      = some (.Wrap .ErrInvalidRequest "fee grants are not enabled") ∧
    (checkDeductFee (ledgerDecoratorNoGrants [9]) (sampleCtx .ExecModeFinalize)
        (World.init sampleLedger)
        (.fee { sampleGrantTx [⟨"atom", 60⟩] [1] with FeeGranter := none }) [⟨"atom", 60⟩]).2
      = none ∧
    (checkDeductFee (ledgerDecoratorNoGrants [9]) (sampleCtx .ExecModeFinalize)
        (World.init sampleLedger) (.fee (sampleGrantTx [⟨"atom", 60⟩] [1])) [⟨"atom", 60⟩]).1.events
      = [] ∧
    (checkDeductFee (ledgerDecoratorNoGrants [9]) (sampleCtx .ExecModeFinalize)
        (World.init sampleLedger)
        (.fee { sampleGrantTx [⟨"atom", 60⟩] [1] with FeeGranter := none })
        [⟨"atom", 60⟩]).1.events
      = [⟨[⟨"atom", 60⟩], [1]⟩] :=
  ⟨rfl, rfl, rfl, rfl⟩

/-- C6, amended: with a feegrant keeper configured, for a declared granter equal to the
declared payer, `checkDeductFee` returns the same result, the same state, events and call
log (so the same transfer, with the same source and amount, and the same event) as for the
same transaction with no granter declared, and it makes no `UseGrantedFees` call. -/
theorem C6_granter_equals_payer_as_no_granter {σ : Type} (dfd : DeductFeeDecorator σ)
    (fk : FeegrantKeeper σ) (ctx : Context) (w : World σ) (ft : FeeTx) (fee : Coins)
    (hk : dfd.feegrantKeeper = some fk) (hg : ft.FeeGranter = some ft.FeePayer) :
    checkDeductFee dfd ctx w (.fee ft) fee =
      checkDeductFee dfd ctx w (.fee { ft with FeeGranter := none }) fee ∧
    ∃ new, (checkDeductFee dfd ctx w (.fee ft) fee).1.calls = w.calls ++ new ∧
      new.filter Call.isUseGrantedFees = [] := by
  cases hc : dfd.accountKeeper.GetModuleAddress w.state FeeCollectorName with
  | none =>
    refine ⟨by simp [checkDeductFee, Tx.asFeeTx, hc],
      [.GetModuleAddress FeeCollectorName], by simp [checkDeductFee, Tx.asFeeTx, hc], rfl⟩
  | some collector =>
    rw [checkDeductFee_eq dfd ctx w ft fee collector hc,
      checkDeductFee_eq dfd ctx w { ft with FeeGranter := none } fee collector hc,
      resolvePayer_same dfd _ (.fee ft) ft fee ft.FeePayer fk hg hk rfl,
      resolvePayer_no_granter dfd _ (.fee { ft with FeeGranter := none })
        { ft with FeeGranter := none } fee rfl]
    refine ⟨rfl, ?_⟩
    simp only
    by_cases hz : fee.IsZero = true
    · rw [if_pos hz]
      exact ⟨[.GetModuleAddress FeeCollectorName], rfl, rfl⟩
    · rw [if_neg hz]
      obtain ⟨-, hcalls⟩ := DeductFees_world dfd.bankKeeper
        { w with calls := w.calls ++ [.GetModuleAddress FeeCollectorName] } ft.FeePayer fee
      rcases hcalls with ⟨hcalls, -⟩ | hcalls
      · refine ⟨[.GetModuleAddress FeeCollectorName], ?_, rfl⟩
        split <;> simp [hcalls]
      · refine ⟨[.GetModuleAddress FeeCollectorName,
          .SendCoinsFromAccountToModule ft.FeePayer FeeCollectorName fee], ?_, rfl⟩
        split <;> simp [hcalls]

/-- C6, amended, at a concrete input: over the ledger with its feegrant keeper, the
payer `[1]` declared as its own granter is charged like the payer without a granter. -/
theorem C6_granter_equals_payer_as_no_granter_witness :
    checkDeductFee (ledgerDecorator [9]) (sampleCtx .ExecModeFinalize)
        (World.init sampleLedger) (.fee (sampleGrantTx [⟨"atom", 60⟩] [1])) [⟨"atom", 60⟩] =
      checkDeductFee (ledgerDecorator [9]) (sampleCtx .ExecModeFinalize)
        (World.init sampleLedger)
        (.fee { sampleGrantTx [⟨"atom", 60⟩] [1] with FeeGranter := none }) [⟨"atom", 60⟩] :=
  (C6_granter_equals_payer_as_no_granter (ledgerDecorator [9]) ledgerFeegrantKeeper
    (sampleCtx .ExecModeFinalize) (World.init sampleLedger) (sampleGrantTx [⟨"atom", 60⟩] [1])
    [⟨"atom", 60⟩] rfl rfl).1


/-- C7 fails for a zero fee that is not the empty coin set: for the resolved fee 0atom
the event emitted carries the fee 0atom, which is not the empty fee. -/
theorem C7_zero_fee_event_not_empty :
    Coins.IsZero [⟨"atom", 0⟩] = true ∧
    (checkDeductFee (ledgerDecorator [9]) (sampleCtx .ExecModeFinalize)
        (World.init sampleLedger) (sampleTx 100000 [⟨"atom", 0⟩]) [⟨"atom", 0⟩]).1.events
      = [⟨[⟨"atom", 0⟩], [1]⟩] ∧
    ([⟨"atom", 0⟩] : Coins) ≠ [] :=
  ⟨rfl, rfl, List.cons_ne_nil _ _⟩

/-- C7, amended: for a resolved fee whose amounts are all zero, with the fee collector set
and payer resolution succeeding with the address `addr`, `checkDeductFee` returns no
error, makes no transfer call, and emits exactly one event, whose fee attribute is the
resolved fee itself (the empty fee when the resolved fee is the empty coin set) and whose
payer attribute is `addr`, the declared granter when there is one and the declared payer
otherwise. -/
theorem C7_zero_fee_skips_transfer {σ : Type} (dfd : DeductFeeDecorator σ) (ctx : Context)
    (w : World σ) (ft : FeeTx) (fee : Coins) (collector addr : AccAddress)
    (hz : fee.IsZero = true)
    (hc : dfd.accountKeeper.GetModuleAddress w.state FeeCollectorName = some collector)
    (hrp : (resolvePayer dfd { w with calls := w.calls ++ [.GetModuleAddress FeeCollectorName] }
      (.fee ft) ft fee).2 = .ok addr) :
    (checkDeductFee dfd ctx w (.fee ft) fee).2 = none ∧
    (checkDeductFee dfd ctx w (.fee ft) fee).1.events = w.events ++ [⟨fee, addr⟩] ∧
    (fee = [] → (checkDeductFee dfd ctx w (.fee ft) fee).1.events = w.events ++ [⟨[], addr⟩]) ∧
    addr = ft.FeeGranter.getD ft.FeePayer ∧
    ∃ new, (checkDeductFee dfd ctx w (.fee ft) fee).1.calls = w.calls ++ new ∧
      new.filter Call.isTransfer = [] := by
  obtain ⟨⟨new, hnew, hfilter⟩, hev, haddr⟩ := resolvePayer_spec dfd
    { w with calls := w.calls ++ [.GetModuleAddress FeeCollectorName] } (.fee ft) ft fee
  rw [checkDeductFee_eq dfd ctx w ft fee collector hc]
  rcases hr : resolvePayer dfd
    { w with calls := w.calls ++ [.GetModuleAddress FeeCollectorName] } (.fee ft) ft fee
    with ⟨w1, r⟩
  rw [hr] at hrp hnew hev
  simp only at hrp hnew hev
  subst hrp
  simp only [hz, if_true]
  refine ⟨trivial, by rw [hev], fun h => by rw [hev, h], haddr addr (by rw [hr]), ?_⟩
  refine ⟨[.GetModuleAddress FeeCollectorName] ++ new, ?_, ?_⟩
  · rw [hnew]; simp
  · simp [List.filter_append, hfilter, Call.isTransfer]

/-- C7, amended, at concrete inputs: the empty fee on the sample ledger. -/
theorem C7_zero_fee_skips_transfer_witness :
    (checkDeductFee (ledgerDecorator [9]) (sampleCtx .ExecModeFinalize)
        (World.init sampleLedger) (sampleTx 100000 []) []).2 = none ∧
    (checkDeductFee (ledgerDecorator [9]) (sampleCtx .ExecModeFinalize)
        (World.init sampleLedger) (sampleTx 100000 []) []).1.events = [⟨[], [1]⟩] :=
  ⟨(C7_zero_fee_skips_transfer (ledgerDecorator [9]) (sampleCtx .ExecModeFinalize)
      (World.init sampleLedger)
      { GetMsgs := ["msg"], GetGas := 100000, GetFee := [], FeePayer := [1], FeeGranter := none }
      [] [9] [1] rfl rfl rfl).1,
   (C7_zero_fee_skips_transfer (ledgerDecorator [9]) (sampleCtx .ExecModeFinalize)
      (World.init sampleLedger)
      { GetMsgs := ["msg"], GetGas := 100000, GetFee := [], FeePayer := [1], FeeGranter := none }
      [] [9] [1] rfl rfl rfl).2.1⟩


/-- The calls payer resolution adds to the log are allowance consumptions only. -/
theorem resolvePayer_calls {σ : Type} (dfd : DeductFeeDecorator σ) (w : World σ) (sdkTx : Tx)
    (feeTx : FeeTx) (fee : Coins) :
    ∃ new, (resolvePayer dfd w sdkTx feeTx fee).1.calls = w.calls ++ new ∧
      ∀ c ∈ new, c.isUseGrantedFees = true := by
  cases hg : feeTx.FeeGranter with
  | none =>
    rw [resolvePayer_no_granter dfd w sdkTx feeTx fee hg]
    exact ⟨[], by simp, by simp⟩
  | some g =>
    cases hk : dfd.feegrantKeeper with
    | none =>
      rw [resolvePayer_no_keeper dfd w sdkTx feeTx fee g hg hk]
      exact ⟨[], by simp, by simp⟩
    | some fk =>
      by_cases he : g = feeTx.FeePayer
      · rw [resolvePayer_same dfd w sdkTx feeTx fee g fk hg hk he]
        exact ⟨[], by simp, by simp⟩
      · cases hr : (fk.UseGrantedFees w.state g feeTx.FeePayer fee sdkTx.GetMsgs).2 with
        | none =>
          rw [resolvePayer_granted dfd w sdkTx feeTx fee g fk hg hk he hr]
          exact ⟨[.UseGrantedFees g feeTx.FeePayer fee sdkTx.GetMsgs], rfl,
            by simp [Call.isUseGrantedFees]⟩
        | some err =>
          rw [resolvePayer_denied dfd w sdkTx feeTx fee g fk err hg hk he hr]
          exact ⟨[.UseGrantedFees g feeTx.FeePayer fee sdkTx.GetMsgs], rfl,
            by simp [Call.isUseGrantedFees]⟩

/-- The calls `checkDeductFee` adds to the log are calls to the three keepers: it invokes
neither the fee checker nor the next handler. -/
theorem checkDeductFee_calls {σ : Type} (dfd : DeductFeeDecorator σ) (ctx : Context)
    (w : World σ) (tx : Tx) (fee : Coins) :
    ∃ new, (checkDeductFee dfd ctx w tx fee).1.calls = w.calls ++ new ∧
      ∀ c ∈ new, c.isTxFeeChecker = false ∧ c.isNext = false := by
  cases tx with
  | plain msgs => exact ⟨[], by simp [checkDeductFee, Tx.asFeeTx], by simp⟩
  | fee ft =>
    cases hc : dfd.accountKeeper.GetModuleAddress w.state FeeCollectorName with
    | none =>
      exact ⟨[.GetModuleAddress FeeCollectorName], by simp [checkDeductFee, Tx.asFeeTx, hc],
        by simp [Call.isTxFeeChecker, Call.isNext]⟩
    | some collector =>
      rw [checkDeductFee_eq dfd ctx w ft fee collector hc]
      obtain ⟨new, hnew, hall⟩ := resolvePayer_calls dfd
        { w with calls := w.calls ++ [.GetModuleAddress FeeCollectorName] } (.fee ft) ft fee
      have hall2 : ∀ c ∈ new, c.isTxFeeChecker = false ∧ c.isNext = false := by
        intro c hcm
        have := hall c hcm
        cases c <;> simp_all [Call.isUseGrantedFees, Call.isTxFeeChecker, Call.isNext]
      rcases hrp : resolvePayer dfd
        { w with calls := w.calls ++ [.GetModuleAddress FeeCollectorName] } (.fee ft) ft fee
        with ⟨w1, r⟩
      rw [hrp] at hnew
      simp only at hnew
      cases r with
      | error err =>
        refine ⟨[.GetModuleAddress FeeCollectorName] ++ new, by simp [hnew], ?_⟩
        intro c hcm
        rcases List.mem_append.mp hcm with h | h
        · simp only [List.mem_singleton] at h
          subst h
          simp [Call.isTxFeeChecker, Call.isNext]
        · exact hall2 c h
      | ok addr =>
        simp only
        by_cases hz : fee.IsZero = true
        · rw [if_pos hz]
          refine ⟨[.GetModuleAddress FeeCollectorName] ++ new, by simp [hnew], ?_⟩
          intro c hcm
          rcases List.mem_append.mp hcm with h | h
          · simp only [List.mem_singleton] at h
            subst h
            simp [Call.isTxFeeChecker, Call.isNext]
          · exact hall2 c h
        · rw [if_neg hz]
          obtain ⟨-, hcalls⟩ := DeductFees_world dfd.bankKeeper w1 addr fee
          rcases hcalls with ⟨hcalls, -⟩ | hcalls
          · refine ⟨[.GetModuleAddress FeeCollectorName] ++ new, ?_, ?_⟩
            · split <;> simp [hcalls, hnew]
            · intro c hcm
              rcases List.mem_append.mp hcm with h | h
              · simp only [List.mem_singleton] at h
                subst h
                simp [Call.isTxFeeChecker, Call.isNext]
              · exact hall2 c h
          · refine ⟨[.GetModuleAddress FeeCollectorName] ++ new ++
              [.SendCoinsFromAccountToModule addr FeeCollectorName fee], ?_, ?_⟩
            · split <;> simp [hcalls, hnew]
            · intro c hcm
              rcases List.mem_append.mp hcm with h | h
              · rcases List.mem_append.mp h with h | h
                · simp only [List.mem_singleton] at h
                  subst h
                  simp [Call.isTxFeeChecker, Call.isNext]
                · exact hall2 c h
              · simp only [List.mem_singleton] at h
                subst h
                simp [Call.isTxFeeChecker, Call.isNext]

/-- Deducting a fixed fee and calling the next handler never invokes the fee checker. -/
theorem deductThenNext_calls {σ : Type} (dfd : DeductFeeDecorator σ) (ctx : Context)
    (w : World σ) (tx : Tx) (next : AnteHandler σ) (fee : Coins) :
    ∃ new, (deductThenNext dfd ctx w tx next fee).1.calls = w.calls ++ new ∧
      new.filter Call.isTxFeeChecker = [] := by
  obtain ⟨new, hnew, hall⟩ := checkDeductFee_calls dfd ctx w tx fee
  have hf : new.filter Call.isTxFeeChecker = [] := by
    rw [List.filter_eq_nil_iff]
    intro c hc
    simp [(hall c hc).1]
  unfold deductThenNext
  cases hd : (checkDeductFee dfd ctx w tx fee).2 with
  | some err => exact ⟨new, by simp [hd, hnew], hf⟩
  | none =>
    refine ⟨new ++ [.next ctx tx (decide (ctx.ExecMode = .ExecModeSimulate))],
      by simp [hd, hnew], ?_⟩
    simp [List.filter_append, hf, Call.isTxFeeChecker]


/-! ## The decorator's handler -/

/-- C8 fails when the gas-limit check rejects the transaction: in Check mode at height 1
with gas limit 0, `AnteHandle` returns the invalid-gas-limit error and has made no call at
all, so the fee checker is not invoked once but never. -/
theorem C8_fee_checker_not_invoked_on_zero_gas :
    (AnteHandle (ledgerDecorator [9]) (sampleCtx .ExecModeCheck) (World.init sampleLedger)
        (sampleTx 0 [⟨"atom", 60⟩]) sampleNext).2.2
      = some (.Wrap .ErrInvalidGasLimit "must provide positive gas") ∧
    (AnteHandle (ledgerDecorator [9]) (sampleCtx .ExecModeCheck) (World.init sampleLedger)
        (sampleTx 0 [⟨"atom", 60⟩]) sampleNext).1.calls = [] ∧
    ((AnteHandle (ledgerDecorator [9]) (sampleCtx .ExecModeCheck) (World.init sampleLedger)
        (sampleTx 0 [⟨"atom", 60⟩]) sampleNext).1.calls.filter Call.isTxFeeChecker).length
      ≠ 1 :=
  ⟨rfl, rfl, by decide⟩

/-- C8, amended: in Simulate mode `AnteHandle` does not invoke the fee checker, whatever
checker is configured, and deducts exactly the declared fee. In every other mode, unless
the gas-limit check rejects the transaction first (positive height and gas limit 0), the
fee checker is invoked exactly once, on the context and the transaction; when it
returns a fee, that fee is the one deducted, and when it returns an error nothing is
deducted and the error is returned. -/
theorem C8_AnteHandle_fee_checker_by_mode {σ : Type} (dfd : DeductFeeDecorator σ)
    (ctx : Context) (w : World σ) (ft : FeeTx) (next : AnteHandler σ) :
    (ctx.ExecMode = .ExecModeSimulate →
      AnteHandle dfd ctx w (.fee ft) next = deductThenNext dfd ctx w (.fee ft) next ft.GetFee ∧
      ∃ new, (AnteHandle dfd ctx w (.fee ft) next).1.calls = w.calls ++ new ∧
        new.filter Call.isTxFeeChecker = []) ∧
    (ctx.ExecMode ≠ .ExecModeSimulate → ¬ (ctx.BlockHeight > 0 ∧ ft.GetGas = 0) →
      (∃ new, (AnteHandle dfd ctx w (.fee ft) next).1.calls = w.calls ++ new ∧
        new.filter Call.isTxFeeChecker = [.txFeeChecker ctx (.fee ft)]) ∧
      (∀ fee, (dfd.txFeeChecker ctx w.state (.fee ft)).2 = .ok fee →
        AnteHandle dfd ctx w (.fee ft) next =
          deductThenNext dfd ctx
            { w with state := (dfd.txFeeChecker ctx w.state (.fee ft)).1
                     calls := w.calls ++ [.txFeeChecker ctx (.fee ft)] }
            (.fee ft) next fee) ∧
      (∀ err, (dfd.txFeeChecker ctx w.state (.fee ft)).2 = .error err →
        AnteHandle dfd ctx w (.fee ft) next =
          ({ w with state := (dfd.txFeeChecker ctx w.state (.fee ft)).1
                    calls := w.calls ++ [.txFeeChecker ctx (.fee ft)] }, ctx, some err))) := by
  constructor
  · intro hsim
    have heq : AnteHandle dfd ctx w (.fee ft) next
        = deductThenNext dfd ctx w (.fee ft) next ft.GetFee := by
      simp [AnteHandle, deductThenNext, Tx.asFeeTx, hsim]
    rw [heq]
    exact ⟨rfl, deductThenNext_calls dfd ctx w (.fee ft) next ft.GetFee⟩
  · intro hmode hgas
    have hguard : ¬ (ctx.ExecMode ≠ .ExecModeSimulate ∧ ctx.BlockHeight > 0 ∧ ft.GetGas = 0) :=
      fun h => hgas h.2
    have hok : ∀ fee, (dfd.txFeeChecker ctx w.state (.fee ft)).2 = .ok fee →
        AnteHandle dfd ctx w (.fee ft) next =
          deductThenNext dfd ctx
            { w with state := (dfd.txFeeChecker ctx w.state (.fee ft)).1
                     calls := w.calls ++ [.txFeeChecker ctx (.fee ft)] }
            (.fee ft) next fee := by
      intro fee hfee
      simp only [AnteHandle, deductThenNext, Tx.asFeeTx, if_neg hguard, if_pos hmode, hfee]
    have herr : ∀ err, (dfd.txFeeChecker ctx w.state (.fee ft)).2 = .error err →
        AnteHandle dfd ctx w (.fee ft) next =
          ({ w with state := (dfd.txFeeChecker ctx w.state (.fee ft)).1
                    calls := w.calls ++ [.txFeeChecker ctx (.fee ft)] }, ctx, some err) := by
      intro err he
      simp only [AnteHandle, Tx.asFeeTx, if_neg hguard, if_pos hmode, he]
    refine ⟨?_, hok, herr⟩
    cases hc : (dfd.txFeeChecker ctx w.state (.fee ft)).2 with
    | error err =>
      rw [herr err hc]
      exact ⟨[.txFeeChecker ctx (.fee ft)], rfl, rfl⟩
    | ok fee =>
      rw [hok fee hc]
      obtain ⟨new, hnew, hf⟩ := deductThenNext_calls dfd ctx
        { w with state := (dfd.txFeeChecker ctx w.state (.fee ft)).1
                 calls := w.calls ++ [.txFeeChecker ctx (.fee ft)] } (.fee ft) next fee
      refine ⟨[.txFeeChecker ctx (.fee ft)] ++ new, by rw [hnew]; simp, ?_⟩
      simp [List.filter_append, hf, Call.isTxFeeChecker]

/-- C8, amended, at concrete inputs: in Simulate mode on the sample ledger the handler
equals the deduction of the declared fee 60atom followed by the next handler, and in Check
mode with gas limit 100000 the default fee checker is invoked once. -/
theorem C8_AnteHandle_fee_checker_by_mode_witness :
    AnteHandle (ledgerDecorator [9]) (sampleCtx .ExecModeSimulate) (World.init sampleLedger)
        (sampleTx 0 [⟨"atom", 60⟩]) sampleNext =
      deductThenNext (ledgerDecorator [9]) (sampleCtx .ExecModeSimulate)
        (World.init sampleLedger) (sampleTx 0 [⟨"atom", 60⟩]) sampleNext [⟨"atom", 60⟩] ∧
    ∃ new, (AnteHandle (ledgerDecorator [9]) (sampleCtx .ExecModeCheck)
        (World.init sampleLedger) (sampleTx 100000 [⟨"atom", 10001⟩]) sampleNext).1.calls =
          (World.init sampleLedger).calls ++ new ∧
        new.filter Call.isTxFeeChecker =
          [.txFeeChecker (sampleCtx .ExecModeCheck) (sampleTx 100000 [⟨"atom", 10001⟩])] :=
  ⟨((C8_AnteHandle_fee_checker_by_mode (ledgerDecorator [9]) (sampleCtx .ExecModeSimulate)
      (World.init sampleLedger)
      { GetMsgs := ["msg"], GetGas := 0, GetFee := [⟨"atom", 60⟩], FeePayer := [1],
        FeeGranter := none } sampleNext).1 rfl).1,
   ((C8_AnteHandle_fee_checker_by_mode (ledgerDecorator [9]) (sampleCtx .ExecModeCheck)
      (World.init sampleLedger)
      { GetMsgs := ["msg"], GetGas := 100000, GetFee := [⟨"atom", 10001⟩], FeePayer := [1],
        FeeGranter := none } sampleNext).2 (by decide) (by decide)).1⟩


/-! ## Atomicity of the deduction -/

/-- Payer resolution leaves the balances as they were, when consuming an allowance does. -/
theorem resolvePayer_balances {σ : Type} (bal : σ → AccAddress → String → Int)
    (dfd : DeductFeeDecorator σ) (w : World σ) (sdkTx : Tx) (feeTx : FeeTx) (fee : Coins)
    (hgrant : ∀ fk, dfd.feegrantKeeper = some fk → ∀ s g p c m x d,
      bal (fk.UseGrantedFees s g p c m).1 x d = bal s x d) :
    ∀ x d, bal (resolvePayer dfd w sdkTx feeTx fee).1.state x d = bal w.state x d := by
  intro x d
  cases hg : feeTx.FeeGranter with
  | none => rw [resolvePayer_no_granter dfd w sdkTx feeTx fee hg]
  | some g =>
    cases hk : dfd.feegrantKeeper with
    | none => rw [resolvePayer_no_keeper dfd w sdkTx feeTx fee g hg hk]
    | some fk =>
      by_cases he : g = feeTx.FeePayer
      · rw [resolvePayer_same dfd w sdkTx feeTx fee g fk hg hk he]
      · cases hr : (fk.UseGrantedFees w.state g feeTx.FeePayer fee sdkTx.GetMsgs).2 with
        | none =>
          rw [resolvePayer_granted dfd w sdkTx feeTx fee g fk hg hk he hr]
          exact hgrant fk hk _ _ _ _ _ x d
        | some err =>
          rw [resolvePayer_denied dfd w sdkTx feeTx fee g fk err hg hk he hr]
          exact hgrant fk hk _ _ _ _ _ x d

/-- A failing `DeductFees` leaves the balances as they were, when a failing transfer does. -/
theorem DeductFees_fail_balances {σ : Type} (bal : σ → AccAddress → String → Int)
    (bk : BankKeeper σ) (w : World σ) (acc : AccAddress) (fees : Coins)
    (hfail : ∀ s a m c, (bk.SendCoinsFromAccountToModule s a m c).2 ≠ none →
      ∀ x d, bal (bk.SendCoinsFromAccountToModule s a m c).1 x d = bal s x d)
    (h : (DeductFees bk w acc fees).2 ≠ none) :
    ∀ x d, bal (DeductFees bk w acc fees).1.state x d = bal w.state x d := by
  intro x d
  unfold DeductFees at h ⊢
  by_cases hv : fees.IsValid = true
  · simp only [hv, Bool.not_true, Bool.false_eq_true, if_false] at h ⊢
    cases hr : (bk.SendCoinsFromAccountToModule w.state acc FeeCollectorName fees).2 with
    | none => simp [hr] at h
    | some err =>
      simp only
      exact hfail w.state acc FeeCollectorName fees (by simp [hr]) x d
  · have hf : fees.IsValid = false := by simpa using hv
    simp [hf]

/-- C10: given a bank transfer that changes no balance when it fails and moves the coins
to the fee collector when it succeeds, and an allowance collaborator that changes no
balance, a failing `checkDeductFee` leaves every balance as it was, and a successful one
with a non-zero fee has moved the full resolved fee from the debited address (the declared
granter when there is one, the declared payer otherwise) to the fee collector. -/
theorem C10_checkDeductFee_atomic {σ : Type} (bal : σ → AccAddress → String → Int)
    (dfd : DeductFeeDecorator σ) (collector : AccAddress) (ctx : Context) (w : World σ)
    (tx : Tx) (fee : Coins)
    (hfail : ∀ s a m c, (dfd.bankKeeper.SendCoinsFromAccountToModule s a m c).2 ≠ none →
      ∀ x d, bal (dfd.bankKeeper.SendCoinsFromAccountToModule s a m c).1 x d = bal s x d)
    (hmove : ∀ s a c,
      (dfd.bankKeeper.SendCoinsFromAccountToModule s a FeeCollectorName c).2 = none →
      Moved (bal s) (bal (dfd.bankKeeper.SendCoinsFromAccountToModule s a FeeCollectorName c).1)
        a collector c)
    (hgrant : ∀ fk, dfd.feegrantKeeper = some fk → ∀ s g p c m x d,
      bal (fk.UseGrantedFees s g p c m).1 x d = bal s x d) :
    ((checkDeductFee dfd ctx w tx fee).2 ≠ none →
      ∀ x d, bal (checkDeductFee dfd ctx w tx fee).1.state x d = bal w.state x d) ∧
    ((checkDeductFee dfd ctx w tx fee).2 = none → fee.IsZero = false →
      ∃ ft, tx.asFeeTx = some ft ∧
        Moved (bal w.state) (bal (checkDeductFee dfd ctx w tx fee).1.state)
          (ft.FeeGranter.getD ft.FeePayer) collector fee) := by
  cases tx with
  | plain msgs =>
    refine ⟨fun _ x d => by simp [checkDeductFee, Tx.asFeeTx], fun h => ?_⟩
    simp [checkDeductFee, Tx.asFeeTx] at h
  | fee ft =>
    cases hc : dfd.accountKeeper.GetModuleAddress w.state FeeCollectorName with
    | none =>
      refine ⟨fun _ x d => by simp [checkDeductFee, Tx.asFeeTx, hc], fun h => ?_⟩
      simp [checkDeductFee, Tx.asFeeTx, hc] at h
    | some coll =>
      rw [checkDeductFee_eq dfd ctx w ft fee coll hc]
      have hbal := resolvePayer_balances bal dfd
        { w with calls := w.calls ++ [.GetModuleAddress FeeCollectorName] } (.fee ft) ft fee hgrant
      obtain ⟨-, -, haddr⟩ := resolvePayer_spec dfd
        { w with calls := w.calls ++ [.GetModuleAddress FeeCollectorName] } (.fee ft) ft fee
      rcases hrp : resolvePayer dfd
        { w with calls := w.calls ++ [.GetModuleAddress FeeCollectorName] } (.fee ft) ft fee
        with ⟨w1, r⟩
      rw [hrp] at hbal haddr
      simp only at hbal
      cases r with
      | error err => exact ⟨fun _ x d => hbal x d, fun h => by simp at h⟩
      | ok addr =>
        have ha := haddr addr rfl
        simp only
        by_cases hz : fee.IsZero = true
        · rw [if_pos hz]
          exact ⟨fun h => absurd rfl h, fun _ hnz => by rw [hz] at hnz; cases hnz⟩
        · rw [if_neg hz]
          cases hd : (DeductFees dfd.bankKeeper w1 addr fee).2 with
          | some err =>
            refine ⟨fun _ x d => ?_, fun h => by simp at h⟩
            simp only
            rw [DeductFees_fail_balances bal dfd.bankKeeper w1 addr fee hfail (by simp [hd]) x d]
            exact hbal x d
          | none =>
            refine ⟨fun h => absurd rfl h, fun _ _ => ⟨ft, rfl, ?_⟩⟩
            obtain ⟨hw, hsend, -⟩ := DeductFees_ok dfd.bankKeeper w1 addr fee hd
            have hm := hmove w1.state addr fee hsend
            simp only [hw]
            intro x d
            rw [hm x d, hbal x d, ha]


/-- The ledger's bank changes no balance when a transfer fails. -/
theorem ledgerBankKeeper_fail (collector : AccAddress) (s : Ledger) (a : AccAddress)
    (m : String) (c : Coins)
    (h : ((ledgerBankKeeper collector).SendCoinsFromAccountToModule s a m c).2 ≠ none) :
    ∀ x d, ((ledgerBankKeeper collector).SendCoinsFromAccountToModule s a m c).1.balance x d
      = s.balance x d := by
  intro x d
  unfold ledgerBankKeeper at h ⊢
  by_cases hcond : c.all (fun k => decide (k.Amount ≤ s.balance a k.Denom)) = true
  · simp [hcond] at h
  · simp [hcond]

/-- The ledger's bank moves the coins to the collector when a transfer succeeds. -/
theorem ledgerBankKeeper_move (collector : AccAddress) (s : Ledger) (a : AccAddress)
    (c : Coins)
    (h : ((ledgerBankKeeper collector).SendCoinsFromAccountToModule s a
      FeeCollectorName c).2 = none) :
    Moved s.balance
      ((ledgerBankKeeper collector).SendCoinsFromAccountToModule s a FeeCollectorName c).1.balance
      a collector c := by
  intro x d
  unfold ledgerBankKeeper at h ⊢
  by_cases hcond : c.all (fun k => decide (k.Amount ≤ s.balance a k.Denom)) = true
  · simp [hcond]
  · simp [hcond] at h

/-- The ledger's allowance collaborator changes no balance. -/
theorem ledgerFeegrantKeeper_balances (s : Ledger) (g p : AccAddress) (c : Coins)
    (m : List Msg) :
    ∀ x d, (ledgerFeegrantKeeper.UseGrantedFees s g p c m).1.balance x d = s.balance x d := by
  intro x d
  unfold ledgerFeegrantKeeper
  simp only
  split_ifs <;> rfl

/-- C10 on the sample ledger: the fee 500atom exceeds the balance of the payer `[1]`, the
deduction fails and every balance is as before; the fee 60atom charged to the granter
`[2]` is moved in full from `[2]` to the fee collector `[9]`. -/
theorem C10_checkDeductFee_atomic_witness :
    (∀ x d, (checkDeductFee (ledgerDecorator [9]) (sampleCtx .ExecModeFinalize)
        (World.init sampleLedger) (sampleTx 100000 [⟨"atom", 500⟩])
        [⟨"atom", 500⟩]).1.state.balance x d = sampleLedger.balance x d) ∧
    (∃ ft, (Tx.fee (sampleGrantTx [⟨"atom", 60⟩] [2])).asFeeTx = some ft ∧
      Moved sampleLedger.balance samplePass1.1.state.balance
        (ft.FeeGranter.getD ft.FeePayer) [9] [⟨"atom", 60⟩]) :=
  ⟨(C10_checkDeductFee_atomic Ledger.balance (ledgerDecorator [9]) [9]
      (sampleCtx .ExecModeFinalize) (World.init sampleLedger)
      (sampleTx 100000 [⟨"atom", 500⟩]) [⟨"atom", 500⟩]
      (fun s a m c h => ledgerBankKeeper_fail [9] s a m c h)
      (fun s a c h => ledgerBankKeeper_move [9] s a c h)
      (fun fk hfk s g p c m => by
        have hfk2 : ledgerFeegrantKeeper = fk := Option.some.inj hfk
        subst hfk2
        exact ledgerFeegrantKeeper_balances s g p c m)).1 (by decide),
   (C10_checkDeductFee_atomic Ledger.balance (ledgerDecorator [9]) [9]
      (sampleCtx .ExecModeFinalize) (World.init sampleLedger)
      (.fee (sampleGrantTx [⟨"atom", 60⟩] [2])) [⟨"atom", 60⟩]
      (fun s a m c h => ledgerBankKeeper_fail [9] s a m c h)
      (fun s a c h => ledgerBankKeeper_move [9] s a c h)
      (fun fk hfk s g p c m => by
        have hfk2 : ledgerFeegrantKeeper = fk := Option.some.inj hfk
        subst hfk2
        exact ledgerFeegrantKeeper_balances s g p c m)).2 rfl rfl⟩

/-! ## The default fee policy -/

/-- The sample of the any-currency threshold: with prices 0.1atom and 0.2stake and gas limit
100000, the fee 10001atom is accepted and the fee 9999atom,0stake is rejected. -/
theorem checkTxFee_sample :
    checkTxFeeWithValidatorMinGasPrices (sampleCtx .ExecModeCheck)
        (sampleTx 100000 [⟨"atom", 10001⟩]) = .ok [⟨"atom", 10001⟩] ∧
    checkTxFeeWithValidatorMinGasPrices (sampleCtx .ExecModeCheck)
        (sampleTx 100000 [⟨"atom", 9999⟩, ⟨"stake", 0⟩]) =
      .error (.Wrapf .ErrInsufficientFee "insufficient fees; got: %s required: %s"
        [[⟨"atom", 9999⟩, ⟨"stake", 0⟩], [⟨"atom", 10000⟩, ⟨"stake", 20000⟩]] []) :=
  ⟨rfl, rfl⟩

/-- C1, at the gas limit 2^63: the conversion `int64(gas)` wraps, so for the price 1atom
the code requires the amount -2^63 instead of 2^63; building that coin is refused, and a
comparison against it would let the fee 5atom pass. The code does not fail with the
insufficient-fee error the claim asks for. -/
theorem C1_checkTxFee_gas_limit_wraps :
    requiredAmount unitPrice 9223372036854775808 = -9223372036854775808 ∧
    checkTxFeeWithValidatorMinGasPrices
        { ExecMode := .ExecModeCheck, BlockHeight := 1, MinGasPrices := [unitPrice] }
        (sampleTx 9223372036854775808 [⟨"atom", 5⟩]) = .error (.Panic "negative coin amount") ∧
    Coins.IsAnyGTE [⟨"atom", 5⟩] [⟨"atom", -9223372036854775808⟩] = true :=
  ⟨rfl, rfl, rfl⟩

/-- C2: outside `ExecModeCheck`, or with empty or zero minimum gas prices, the default
policy returns exactly the declared fee and no error, whatever the fee and the gas limit;
the fee 0atom is rejected in Check mode with prices configured and accepted unchanged in
Finalize mode. -/
theorem C2_floor_only_in_Check_with_prices :
    (∀ (ctx : Context) (ft : FeeTx),
      (ctx.ExecMode ≠ .ExecModeCheck ∨ ctx.MinGasPrices.IsZero = true) →
        checkTxFeeWithValidatorMinGasPrices ctx (.fee ft) = .ok ft.GetFee) ∧
    checkTxFeeWithValidatorMinGasPrices (sampleCtx .ExecModeCheck)
        (sampleTx 100000 [⟨"atom", 0⟩]) =
      .error (.Wrapf .ErrInsufficientFee "insufficient fees; got: %s required: %s"
        [[⟨"atom", 0⟩], [⟨"atom", 10000⟩, ⟨"stake", 20000⟩]] []) ∧
    checkTxFeeWithValidatorMinGasPrices (sampleCtx .ExecModeFinalize)
        (sampleTx 100000 [⟨"atom", 0⟩]) = .ok [⟨"atom", 0⟩] := by
  refine ⟨?_, rfl, rfl⟩
  intro ctx ft h
  unfold checkTxFeeWithValidatorMinGasPrices
  simp only [Tx.asFeeTx]
  rcases h with h | h
  · rw [if_neg h]
  · simp only [h, Bool.not_true, Bool.false_eq_true, if_false, ite_self]

/-- C2 at concrete inputs: ReCheck mode with the sample prices, and Check mode with a
zero price, both return the declared fee 0atom. -/
theorem C2_floor_only_in_Check_with_prices_witness :
    checkTxFeeWithValidatorMinGasPrices (sampleCtx .ExecModeReCheck)
        (sampleTx 100000 [⟨"atom", 0⟩]) = .ok [⟨"atom", 0⟩] ∧
    checkTxFeeWithValidatorMinGasPrices
        { ExecMode := .ExecModeCheck, BlockHeight := 1, MinGasPrices := [⟨"atom", ⟨0⟩⟩] }
        (sampleTx 100000 [⟨"atom", 0⟩]) = .ok [⟨"atom", 0⟩] :=
  ⟨C2_floor_only_in_Check_with_prices.1 (sampleCtx .ExecModeReCheck) _ (Or.inl (by decide)),
   C2_floor_only_in_Check_with_prices.1 _ _ (Or.inr rfl)⟩

/-- C9, at the gas limit 2^63 and the price 1atom: the least integer above the exact
product is 2^63, the code computes -2^63 because `int64(gas)` wraps, and the loop
filling the required fees fails on that negative amount. -/
theorem C9_requiredAmount_gas_limit_wraps :
    Int.ceil (unitPrice.Amount.value * ((9223372036854775808 : Nat) : ℚ)) = 9223372036854775808 ∧
    requiredAmount unitPrice 9223372036854775808 = -9223372036854775808 ∧
    requiredFees [unitPrice] 9223372036854775808 = none := by
  refine ⟨?_, rfl, rfl⟩
  have hv : unitPrice.Amount.value = 1 := by
    unfold unitPrice LegacyNewDec LegacyDec.value precisionReuse
    push_cast
    norm_num
  rw [hv, one_mul]
  exact Int.ceil_natCast _

/-! ## Propagation through the handler -/

theorem AnteHandle_not_feeTx {σ : Type} (dfd : DeductFeeDecorator σ) (ctx : Context)
    (w : World σ) (tx : Tx) (next : AnteHandler σ) (h : tx.asFeeTx = none) :
    AnteHandle dfd ctx w tx next = (w, ctx, some (.Wrap .ErrTxDecode "Tx must be a FeeTx")) := by
  simp only [AnteHandle, h]

theorem AnteHandle_gas_rejected {σ : Type} (dfd : DeductFeeDecorator σ) (ctx : Context)
    (w : World σ) (tx : Tx) (next : AnteHandler σ) (ft : FeeTx) (h : tx.asFeeTx = some ft)
    (hg : gasLimitCheckFails ctx ft) :
    AnteHandle dfd ctx w tx next =
      (w, ctx, some (.Wrap .ErrInvalidGasLimit "must provide positive gas")) := by
  unfold gasLimitCheckFails at hg
  simp only [AnteHandle, h, if_pos hg]

theorem AnteHandle_checker_error {σ : Type} (dfd : DeductFeeDecorator σ) (ctx : Context)
    (w : World σ) (tx : Tx) (next : AnteHandler σ) (ft : FeeTx) (e : Err)
    (h : tx.asFeeTx = some ft) (hg : ¬ gasLimitCheckFails ctx ft)
    (hmode : ctx.ExecMode ≠ .ExecModeSimulate)
    (he : (dfd.txFeeChecker ctx w.state tx).2 = .error e) :
    AnteHandle dfd ctx w tx next =
      ({ w with state := (dfd.txFeeChecker ctx w.state tx).1
                calls := w.calls ++ [.txFeeChecker ctx tx] }, ctx, some e) := by
  unfold gasLimitCheckFails at hg
  simp only [AnteHandle, h, if_neg hg, if_pos hmode, he]

/-- Once the fee policy has yielded a fee, the handler is the deduction of that fee
followed by the next handler. -/
theorem AnteHandle_fee_resolved {σ : Type} (dfd : DeductFeeDecorator σ) (ctx : Context)
    (w : World σ) (tx : Tx) (next : AnteHandler σ) (ft : FeeTx) (wf : World σ) (fee : Coins)
    (h : tx.asFeeTx = some ft) (hg : ¬ gasLimitCheckFails ctx ft)
    (hf : feePolicyYields dfd ctx w tx ft wf fee) :
    AnteHandle dfd ctx w tx next = deductThenNext dfd ctx wf tx next fee := by
  unfold gasLimitCheckFails at hg
  rcases hf with ⟨hsim, rfl, rfl⟩ | ⟨hmode, hok, rfl⟩
  · simp [AnteHandle, deductThenNext, h, hsim]
  · simp only [AnteHandle, deductThenNext, h, if_neg hg, if_pos hmode, hok]

theorem deductThenNext_fail {σ : Type} (dfd : DeductFeeDecorator σ) (ctx : Context)
    (w : World σ) (tx : Tx) (next : AnteHandler σ) (fee : Coins) (e : Err)
    (h : (checkDeductFee dfd ctx w tx fee).2 = some e) :
    deductThenNext dfd ctx w tx next fee = ((checkDeductFee dfd ctx w tx fee).1, ctx, some e) := by
  simp only [deductThenNext, h]

theorem deductThenNext_ok {σ : Type} (dfd : DeductFeeDecorator σ) (ctx : Context)
    (w : World σ) (tx : Tx) (next : AnteHandler σ) (fee : Coins)
    (h : (checkDeductFee dfd ctx w tx fee).2 = none) :
    deductThenNext dfd ctx w tx next fee =
      ({ (checkDeductFee dfd ctx w tx fee).1 with
          state := (next ctx (checkDeductFee dfd ctx w tx fee).1.state tx
            (decide (ctx.ExecMode = .ExecModeSimulate))).1
          calls := (checkDeductFee dfd ctx w tx fee).1.calls ++
            [.next ctx tx (decide (ctx.ExecMode = .ExecModeSimulate))] },
       (next ctx (checkDeductFee dfd ctx w tx fee).1.state tx
          (decide (ctx.ExecMode = .ExecModeSimulate))).2.1,
       (next ctx (checkDeductFee dfd ctx w tx fee).1.state tx
          (decide (ctx.ExecMode = .ExecModeSimulate))).2.2) := by
  simp only [deductThenNext, h]

/-- The calls of the next handler that deducting a fixed fee and going on adds to the log:
one when the deduction succeeds, none when it fails. -/
theorem deductThenNext_next_calls {σ : Type} (dfd : DeductFeeDecorator σ) (ctx : Context)
    (w : World σ) (tx : Tx) (next : AnteHandler σ) (fee : Coins) :
    ∃ new, (deductThenNext dfd ctx w tx next fee).1.calls = w.calls ++ new ∧
      new.filter Call.isNext =
        if (checkDeductFee dfd ctx w tx fee).2 = none then
          [.next ctx tx (decide (ctx.ExecMode = .ExecModeSimulate))]
        else [] := by
  obtain ⟨new, hnew, hall⟩ := checkDeductFee_calls dfd ctx w tx fee
  have hf : new.filter Call.isNext = [] := by
    rw [List.filter_eq_nil_iff]
    intro c hc
    simp [(hall c hc).2]
  cases hd : (checkDeductFee dfd ctx w tx fee).2 with
  | some err =>
    rw [deductThenNext_fail dfd ctx w tx next fee err hd]
    exact ⟨new, hnew, by simp [hf]⟩
  | none =>
    rw [deductThenNext_ok dfd ctx w tx next fee hd]
    refine ⟨new ++ [.next ctx tx (decide (ctx.ExecMode = .ExecModeSimulate))], ?_, ?_⟩
    · simp [hnew]
    · simp [List.filter_append, hf, Call.isNext]

/-- C11: `AnteHandle` invokes the next handler if and only if the transaction is
fee-bearing and the gas-limit check, the fee policy and the fee deduction all succeed.
In that case the log holds exactly one call of next, with the same context and
transaction, and the handler returns the result of next. In every other case no call of
next is made and the handler returns, with its own context, the error of the stage that
failed as that stage produced it: the decode error for a transaction that is not
fee-bearing, the invalid-gas-limit error, the error of the fee checker, or the error of
`checkDeductFee`. -/
theorem C11_AnteHandle_next_iff_stages_succeed {σ : Type} (dfd : DeductFeeDecorator σ)
    (ctx : Context) (w : World σ) (tx : Tx) (next : AnteHandler σ) :
    (allStagesSucceed dfd ctx w tx →
      ∃ new, (AnteHandle dfd ctx w tx next).1.calls = w.calls ++ new ∧
        new.filter Call.isNext = [.next ctx tx (decide (ctx.ExecMode = .ExecModeSimulate))]) ∧
    (¬ allStagesSucceed dfd ctx w tx →
      ∃ new, (AnteHandle dfd ctx w tx next).1.calls = w.calls ++ new ∧
        new.filter Call.isNext = []) ∧
    (∀ ft wf fee, tx.asFeeTx = some ft → ¬ gasLimitCheckFails ctx ft →
      feePolicyYields dfd ctx w tx ft wf fee → (checkDeductFee dfd ctx wf tx fee).2 = none →
      AnteHandle dfd ctx w tx next =
        ({ (checkDeductFee dfd ctx wf tx fee).1 with
            state := (next ctx (checkDeductFee dfd ctx wf tx fee).1.state tx
              (decide (ctx.ExecMode = .ExecModeSimulate))).1
            calls := (checkDeductFee dfd ctx wf tx fee).1.calls ++
              [.next ctx tx (decide (ctx.ExecMode = .ExecModeSimulate))] },
         (next ctx (checkDeductFee dfd ctx wf tx fee).1.state tx
            (decide (ctx.ExecMode = .ExecModeSimulate))).2.1,
         (next ctx (checkDeductFee dfd ctx wf tx fee).1.state tx
            (decide (ctx.ExecMode = .ExecModeSimulate))).2.2)) ∧
    (tx.asFeeTx = none →
      AnteHandle dfd ctx w tx next =
        (w, ctx, some (.Wrap .ErrTxDecode "Tx must be a FeeTx"))) ∧
    (∀ ft, tx.asFeeTx = some ft → gasLimitCheckFails ctx ft →
      AnteHandle dfd ctx w tx next =
        (w, ctx, some (.Wrap .ErrInvalidGasLimit "must provide positive gas"))) ∧
    (∀ ft e, tx.asFeeTx = some ft → ¬ gasLimitCheckFails ctx ft →
      ctx.ExecMode ≠ .ExecModeSimulate → (dfd.txFeeChecker ctx w.state tx).2 = .error e →
      AnteHandle dfd ctx w tx next =
        ({ w with state := (dfd.txFeeChecker ctx w.state tx).1
                  calls := w.calls ++ [.txFeeChecker ctx tx] }, ctx, some e)) ∧
    (∀ ft wf fee e, tx.asFeeTx = some ft → ¬ gasLimitCheckFails ctx ft →
      feePolicyYields dfd ctx w tx ft wf fee → (checkDeductFee dfd ctx wf tx fee).2 = some e →
      AnteHandle dfd ctx w tx next = ((checkDeductFee dfd ctx wf tx fee).1, ctx, some e)) := by
  have hyes : allStagesSucceed dfd ctx w tx →
      ∃ new, (AnteHandle dfd ctx w tx next).1.calls = w.calls ++ new ∧
        new.filter Call.isNext =
          [.next ctx tx (decide (ctx.ExecMode = .ExecModeSimulate))] := by
    rintro ⟨ft, wf, fee, hft, hg, hf, hd⟩
    rw [AnteHandle_fee_resolved dfd ctx w tx next ft wf fee hft hg hf]
    obtain ⟨new, hnew, hnext⟩ := deductThenNext_next_calls dfd ctx wf tx next fee
    rw [if_pos hd] at hnext
    rcases hf with ⟨-, rfl, -⟩ | ⟨-, -, rfl⟩
    · exact ⟨new, hnew, hnext⟩
    · refine ⟨[.txFeeChecker ctx tx] ++ new, by rw [hnew]; simp, ?_⟩
      simp [List.filter_append, hnext, Call.isNext]
  have hno : ¬ allStagesSucceed dfd ctx w tx →
      ∃ new, (AnteHandle dfd ctx w tx next).1.calls = w.calls ++ new ∧
        new.filter Call.isNext = [] := by
    intro hn
    cases hft : tx.asFeeTx with
    | none =>
      rw [AnteHandle_not_feeTx dfd ctx w tx next hft]
      exact ⟨[], by simp, rfl⟩
    | some ft =>
      by_cases hg : gasLimitCheckFails ctx ft
      · rw [AnteHandle_gas_rejected dfd ctx w tx next ft hft hg]
        exact ⟨[], by simp, rfl⟩
      · by_cases hsim : ctx.ExecMode = .ExecModeSimulate
        · have hf : feePolicyYields dfd ctx w tx ft w ft.GetFee := Or.inl ⟨hsim, rfl, rfl⟩
          rw [AnteHandle_fee_resolved dfd ctx w tx next ft w ft.GetFee hft hg hf]
          obtain ⟨new, hnew, hnext⟩ := deductThenNext_next_calls dfd ctx w tx next ft.GetFee
          have hd : ¬ (checkDeductFee dfd ctx w tx ft.GetFee).2 = none :=
            fun hd => hn ⟨ft, w, ft.GetFee, hft, hg, hf, hd⟩
          rw [if_neg hd] at hnext
          exact ⟨new, hnew, hnext⟩
        · cases hc : (dfd.txFeeChecker ctx w.state tx).2 with
          | error e =>
            rw [AnteHandle_checker_error dfd ctx w tx next ft e hft hg hsim hc]
            exact ⟨[.txFeeChecker ctx tx], rfl, rfl⟩
          | ok fee =>
            have hf : feePolicyYields dfd ctx w tx ft
                { w with state := (dfd.txFeeChecker ctx w.state tx).1
                         calls := w.calls ++ [.txFeeChecker ctx tx] } fee :=
              Or.inr ⟨hsim, hc, rfl⟩
            rw [AnteHandle_fee_resolved dfd ctx w tx next ft _ fee hft hg hf]
            obtain ⟨new, hnew, hnext⟩ := deductThenNext_next_calls dfd ctx
              { w with state := (dfd.txFeeChecker ctx w.state tx).1
                       calls := w.calls ++ [.txFeeChecker ctx tx] } tx next fee
            have hd : ¬ (checkDeductFee dfd ctx
                { w with state := (dfd.txFeeChecker ctx w.state tx).1
                         calls := w.calls ++ [.txFeeChecker ctx tx] } tx fee).2 = none :=
              fun hd => hn ⟨ft, _, fee, hft, hg, hf, hd⟩
            rw [if_neg hd] at hnext
            refine ⟨[.txFeeChecker ctx tx] ++ new, by rw [hnew]; simp, ?_⟩
            simp [List.filter_append, hnext, Call.isNext]
  refine ⟨hyes, hno, ?_, ?_, ?_, ?_, ?_⟩
  · intro ft wf fee hft hg hf hd
    rw [AnteHandle_fee_resolved dfd ctx w tx next ft wf fee hft hg hf,
      deductThenNext_ok dfd ctx wf tx next fee hd]
  · exact AnteHandle_not_feeTx dfd ctx w tx next
  · exact AnteHandle_gas_rejected dfd ctx w tx next
  · intro ft e hft hg hmode he
    exact AnteHandle_checker_error dfd ctx w tx next ft e hft hg hmode he
  · intro ft wf fee e hft hg hf hd
    rw [AnteHandle_fee_resolved dfd ctx w tx next ft wf fee hft hg hf,
      deductThenNext_fail dfd ctx wf tx next fee e hd]

/-- C11 on the sample ledger: in Finalize mode the fee 60atom of payer `[1]` passes every
stage and the next handler is called once; in Check mode at height 1 the gas limit 0 is
rejected with the invalid-gas-limit error as the handler produced it. -/
theorem C11_AnteHandle_next_iff_stages_succeed_witness :
    (∃ new, (AnteHandle (ledgerDecorator [9]) (sampleCtx .ExecModeFinalize)
        (World.init sampleLedger) (sampleTx 100000 [⟨"atom", 60⟩]) sampleNext).1.calls =
          (World.init sampleLedger).calls ++ new ∧
        new.filter Call.isNext =
          [.next (sampleCtx .ExecModeFinalize) (sampleTx 100000 [⟨"atom", 60⟩]) false]) ∧
    AnteHandle (ledgerDecorator [9]) (sampleCtx .ExecModeCheck) (World.init sampleLedger)
        (sampleTx 0 [⟨"atom", 60⟩]) sampleNext =
      (World.init sampleLedger, sampleCtx .ExecModeCheck,
        some (.Wrap .ErrInvalidGasLimit "must provide positive gas")) :=
  ⟨(C11_AnteHandle_next_iff_stages_succeed (ledgerDecorator [9]) (sampleCtx .ExecModeFinalize)
      (World.init sampleLedger) (sampleTx 100000 [⟨"atom", 60⟩]) sampleNext).1
      ⟨_, _, _, rfl, fun h => absurd h.2.2 (by decide), Or.inr ⟨by decide, rfl, rfl⟩, rfl⟩,
   (C11_AnteHandle_next_iff_stages_succeed (ledgerDecorator [9]) (sampleCtx .ExecModeCheck)
      (World.init sampleLedger) (sampleTx 0 [⟨"atom", 60⟩]) sampleNext).2.2.2.2.1 _ rfl
      ⟨by decide, by decide, rfl⟩⟩

/-! ## The fee collector check and the validity of the fee -/

/-- C12: `checkDeductFee` is called by `AnteHandle` only (source line 68), after the
handler has returned for every transaction that is not fee-bearing (lines 51 to 54). For
every transaction it can receive and every resolved fee, when the account keeper returns
no address for the fee-collector module account, `checkDeductFee` fails with the
fee-collector-not-set error after the single call `GetModuleAddress`: the state is
unchanged, no `UseGrantedFees` call and no transfer is made, and no event is emitted.
That error wraps no cause and is none of the errors the per-transaction rejections are
built from: it is not a wrapped error, and no registered error is recoverable from it. -/
theorem C12_checkDeductFee_fee_collector_first {σ : Type} (dfd : DeductFeeDecorator σ)
    (ctx : Context) (w : World σ) (tx : Tx) (ft : FeeTx) (fee : Coins)
    (htx : tx.asFeeTx = some ft)
    (hc : dfd.accountKeeper.GetModuleAddress w.state FeeCollectorName = none) :
    checkDeductFee dfd ctx w tx fee =
      ({ w with calls := w.calls ++ [.GetModuleAddress FeeCollectorName] },
        some feeCollectorNotSet) ∧
    (∃ new, (checkDeductFee dfd ctx w tx fee).1.calls = w.calls ++ new ∧
      new.filter Call.isUseGrantedFees = [] ∧ new.filter Call.isTransfer = []) ∧
    (checkDeductFee dfd ctx w tx fee).1.events = w.events ∧
    (checkDeductFee dfd ctx w tx fee).1.state = w.state ∧
    feeCollectorNotSet.Unwrap = none ∧
    (∀ k ∈ [Err.ErrTxDecode, Err.ErrInvalidGasLimit, Err.ErrInsufficientFee,
        Err.ErrInsufficientFunds, Err.ErrInvalidRequest], feeCollectorNotSet.Is k = false) ∧
    (∀ cause msg, feeCollectorNotSet ≠ .Wrap cause msg) ∧
    (∀ cause format coins addrs, feeCollectorNotSet ≠ .Wrapf cause format coins addrs) ∧
    (∀ cause text, feeCollectorNotSet ≠ .WrapText cause text) := by
  have heq : checkDeductFee dfd ctx w tx fee =
      ({ w with calls := w.calls ++ [.GetModuleAddress FeeCollectorName] },
        some feeCollectorNotSet) := by
    simp only [checkDeductFee, htx, hc, feeCollectorNotSet]
  rw [heq]
  refine ⟨rfl, ⟨[.GetModuleAddress FeeCollectorName], rfl, rfl, rfl⟩, rfl, rfl, rfl,
    ?_, ?_, ?_, ?_⟩
  · intro k hk
    simp only [List.mem_cons, List.mem_singleton, List.not_mem_nil, or_false] at hk
    rcases hk with rfl | rfl | rfl | rfl | rfl <;> rfl
  · intro cause msg h
    cases h
  · intro cause format coins addrs h
    cases h
  · intro cause text h
    cases h

/-- C12 on the ledger with no fee collector set: the fee 60atom of payer `[1]` on granter
`[2]` is refused with the fee-collector-not-set error. -/
theorem C12_checkDeductFee_fee_collector_first_witness :
    (checkDeductFee ledgerDecoratorNoCollector (sampleCtx .ExecModeFinalize)
        (World.init sampleLedger) (.fee (sampleGrantTx [⟨"atom", 60⟩] [2])) [⟨"atom", 60⟩]).2
      = some feeCollectorNotSet :=
  congrArg Prod.snd
    (C12_checkDeductFee_fee_collector_first ledgerDecoratorNoCollector
      (sampleCtx .ExecModeFinalize) (World.init sampleLedger)
      (.fee (sampleGrantTx [⟨"atom", 60⟩] [2])) (sampleGrantTx [⟨"atom", 60⟩] [2])
      [⟨"atom", 60⟩] rfl rfl).1

theorem DeductFees_invalid {σ : Type} (bk : BankKeeper σ) (w : World σ) (acc : AccAddress)
    (fees : Coins) (h : fees.IsValid = false) :
    DeductFees bk w acc fees =
      (w, some (.Wrapf .ErrInsufficientFee "invalid fee amount: %s" [fees] [])) := by
  simp only [DeductFees, h, Bool.not_false, if_true]

/-- C13 fails for an ill-formed fee whose amounts are all zero: the fee 0atom,0atom has a
duplicated denomination, and `checkDeductFee` admits it with no error (and one event),
since the fee is validated only when a transfer is due. -/
theorem C13_ill_formed_zero_fee_admitted :
    Coins.IsValid [⟨"atom", 0⟩, ⟨"atom", 0⟩] = false ∧
    (checkDeductFee (ledgerDecorator [9]) (sampleCtx .ExecModeFinalize)
        (World.init sampleLedger) (sampleTx 100000 [⟨"atom", 0⟩, ⟨"atom", 0⟩])
        [⟨"atom", 0⟩, ⟨"atom", 0⟩]).2 = none ∧
    (checkDeductFee (ledgerDecorator [9]) (sampleCtx .ExecModeFinalize)
        (World.init sampleLedger) (sampleTx 100000 [⟨"atom", 0⟩, ⟨"atom", 0⟩])
        [⟨"atom", 0⟩, ⟨"atom", 0⟩]).1.events = [⟨[⟨"atom", 0⟩, ⟨"atom", 0⟩], [1]⟩] :=
  ⟨by decide, rfl, rfl⟩

/-- C13, amended: for a fee that is not a well-formed coin set, `checkDeductFee` never
calls `SendCoinsFromAccountToModule`; when the amounts of the fee are not all zero, and so
whenever one of them is negative, it fails, and once the fee collector is found and the
payer is resolved the failure is the invalid-fee-amount error, returned before any
transfer. (When the amounts are all zero the fee is not validated.) -/
theorem C13_checkDeductFee_ill_formed_fee {σ : Type} (dfd : DeductFeeDecorator σ)
    (ctx : Context) (w : World σ) (tx : Tx) (fee : Coins) (hbad : fee.IsValid = false) :
    (∃ new, (checkDeductFee dfd ctx w tx fee).1.calls = w.calls ++ new ∧
      new.filter Call.isTransfer = []) ∧
    (fee.IsZero = false → ∃ e, (checkDeductFee dfd ctx w tx fee).2 = some e) ∧
    ((∃ c ∈ fee, c.Amount < 0) → ∃ e, (checkDeductFee dfd ctx w tx fee).2 = some e) ∧
    (∀ ft collector w1 deductFeesFrom, tx = .fee ft →
      dfd.accountKeeper.GetModuleAddress w.state FeeCollectorName = some collector →
      resolvePayer dfd { w with calls := w.calls ++ [.GetModuleAddress FeeCollectorName] }
        (.fee ft) ft fee = (w1, .ok deductFeesFrom) →
      fee.IsZero = false →
      checkDeductFee dfd ctx w tx fee =
        (w1, some (.Wrapf .ErrInsufficientFee "invalid fee amount: %s" [fee] []))) := by
  have hlast : ∀ ft collector w1 deductFeesFrom, tx = .fee ft →
      dfd.accountKeeper.GetModuleAddress w.state FeeCollectorName = some collector →
      resolvePayer dfd { w with calls := w.calls ++ [.GetModuleAddress FeeCollectorName] }
        (.fee ft) ft fee = (w1, .ok deductFeesFrom) →
      fee.IsZero = false →
      checkDeductFee dfd ctx w tx fee =
        (w1, some (.Wrapf .ErrInsufficientFee "invalid fee amount: %s" [fee] [])) := by
    intro ft collector w1 addr htx hc hrp hnz
    subst htx
    rw [checkDeductFee_eq dfd ctx w ft fee collector hc, hrp]
    simp only [hnz, Bool.false_eq_true, if_false, DeductFees_invalid dfd.bankKeeper w1 addr fee hbad]
  have hfail : fee.IsZero = false → ∃ e, (checkDeductFee dfd ctx w tx fee).2 = some e := by
    intro hnz
    cases tx with
    | plain msgs =>
      exact ⟨.Wrap .ErrTxDecode "Tx must be a FeeTx", by simp [checkDeductFee, Tx.asFeeTx]⟩
    | fee ft =>
      cases hc : dfd.accountKeeper.GetModuleAddress w.state FeeCollectorName with
      | none =>
        exact ⟨feeCollectorNotSet,
          by simp [checkDeductFee, Tx.asFeeTx, hc, feeCollectorNotSet]⟩
      | some collector =>
        rcases hrp : resolvePayer dfd
          { w with calls := w.calls ++ [.GetModuleAddress FeeCollectorName] } (.fee ft) ft fee
          with ⟨w1, r⟩
        cases r with
        | error err =>
          rw [checkDeductFee_eq dfd ctx w ft fee collector hc, hrp]
          exact ⟨err, rfl⟩
        | ok addr =>
          rw [hlast ft collector w1 addr rfl hc hrp hnz]
          exact ⟨_, rfl⟩
  have hneg : (∃ c ∈ fee, c.Amount < 0) → fee.IsZero = false := by
    rintro ⟨c, hc, hlt⟩
    cases hz : fee.IsZero with
    | false => rfl
    | true =>
      have h0 := (List.all_eq_true.mp hz) c hc
      simp only [beq_iff_eq] at h0
      omega
  refine ⟨?_, hfail, fun h => hfail (hneg h), hlast⟩
  · cases tx with
    | plain msgs => exact ⟨[], by simp [checkDeductFee, Tx.asFeeTx], rfl⟩
    | fee ft =>
      cases hc : dfd.accountKeeper.GetModuleAddress w.state FeeCollectorName with
      | none =>
        exact ⟨[.GetModuleAddress FeeCollectorName],
          by simp [checkDeductFee, Tx.asFeeTx, hc], rfl⟩
      | some collector =>
        obtain ⟨⟨new, hnew, hfilter⟩, -, -⟩ := resolvePayer_spec dfd
          { w with calls := w.calls ++ [.GetModuleAddress FeeCollectorName] } (.fee ft) ft fee
        rcases hrp : resolvePayer dfd
          { w with calls := w.calls ++ [.GetModuleAddress FeeCollectorName] } (.fee ft) ft fee
          with ⟨w1, r⟩
        rw [hrp] at hnew
        simp only at hnew
        have hcalls : (checkDeductFee dfd ctx w (.fee ft) fee).1.calls = w1.calls := by
          cases r with
          | error err =>
            rw [checkDeductFee_eq dfd ctx w ft fee collector hc, hrp]
          | ok addr =>
            by_cases hz : fee.IsZero = true
            · rw [checkDeductFee_eq dfd ctx w ft fee collector hc, hrp]
              simp only [hz, if_true]
            · have hnz : fee.IsZero = false := by simpa using hz
              rw [hlast ft collector w1 addr rfl hc hrp hnz]
        refine ⟨[.GetModuleAddress FeeCollectorName] ++ new, ?_, ?_⟩
        · rw [hcalls, hnew]; simp
        · simp [List.filter_append, hfilter, Call.isTransfer]

/-- C13, amended, at a concrete input: the fee 60atom,60atom has a duplicated
denomination and is refused with the invalid-fee-amount error, no transfer being made. -/
theorem C13_checkDeductFee_ill_formed_fee_witness :
    (∃ new, (checkDeductFee (ledgerDecorator [9]) (sampleCtx .ExecModeFinalize)
        (World.init sampleLedger) (sampleTx 100000 [⟨"atom", 60⟩, ⟨"atom", 60⟩])
        [⟨"atom", 60⟩, ⟨"atom", 60⟩]).1.calls = (World.init sampleLedger).calls ++ new ∧
      new.filter Call.isTransfer = []) ∧
    ∃ e, (checkDeductFee (ledgerDecorator [9]) (sampleCtx .ExecModeFinalize)
        (World.init sampleLedger) (sampleTx 100000 [⟨"atom", 60⟩, ⟨"atom", 60⟩])
        [⟨"atom", 60⟩, ⟨"atom", 60⟩]).2 = some e :=
  ⟨(C13_checkDeductFee_ill_formed_fee (ledgerDecorator [9]) (sampleCtx .ExecModeFinalize)
      (World.init sampleLedger) (sampleTx 100000 [⟨"atom", 60⟩, ⟨"atom", 60⟩])
      [⟨"atom", 60⟩, ⟨"atom", 60⟩] (by decide)).1,
   (C13_checkDeductFee_ill_formed_fee (ledgerDecorator [9]) (sampleCtx .ExecModeFinalize)
      (World.init sampleLedger) (sampleTx 100000 [⟨"atom", 60⟩, ⟨"atom", 60⟩])
      [⟨"atom", 60⟩, ⟨"atom", 60⟩] (by decide)).2.1 rfl⟩

end CosmosAnte
